import Mathlib

/-! The shift handler of the Qt virtual keyboard.

A shallow embedding of `src/virtualkeyboard/shifthandler.cpp`.

* The private data of the handler is the record `ShiftHandlerPrivate`.
* Everything the handler reads from its collaborators during one slot
  invocation (input context, input engine, application, style hints, wall
  clock) is the record `Collaborators`.
* A slot is a function from the collaborators and the data before the call to
  the data after the call together with the signals emitted, in order.
-/

namespace QtVirtualKeyboard

/-! ## Qt value types used by the handler -/

/-- A `QChar` is one UTF-16 code unit. -/
abbrev QChar := Nat

/-- A `QString` is a sequence of `QChar`. -/
abbrev QString := List QChar

/-- The code points of the Unicode categories Zs, Zl and Zp above U+00A0,
which is what `QChar::isSpace_helper` answers for. -/
def isSpace_helper (ucs4 : Nat) : Bool :=
  ucs4 == 0x1680 || (0x2000 ≤ ucs4 && ucs4 ≤ 0x200a) || ucs4 == 0x2028 || ucs4 == 0x2029 ||
    ucs4 == 0x202f || ucs4 == 0x205f || ucs4 == 0x3000

/-- The test `QChar::isSpace` of Qt: the separator characters, the
controls U+0009..U+000D and U+0085. -/
def isSpace (ucs4 : QChar) : Bool :=
  ucs4 == 0x20 || (ucs4 ≤ 0x0d && ucs4 ≥ 0x09) ||
    (ucs4 > 127 && (ucs4 == 0x85 || ucs4 == 0xa0 || isSpace_helper ucs4))

/-- The string after `QString::truncate(pos)`: nothing happens when `pos` is
at or beyond the end, a negative `pos` empties the string. -/
def truncate (text : QString) (pos : Int) : QString :=
  if pos < (text.length : Int) then text.take pos.toNat else text

/-- The result of `QString::trimmed()`: white space removed from both ends. -/
def trimmed (text : QString) : QString :=
  ((text.dropWhile isSpace).reverse.dropWhile isSpace).reverse

/-- The result of `QString::indexOf(ch)`: the first index of `ch`, or `-1`. -/
def indexOf (s : QString) (ch : QChar) : Int :=
  if ch ∈ s then (List.indexOf ch s : Int) else -1

/-- Milliseconds in a day, the modulus of `QTime`. -/
def MSECS_PER_DAY : Int := 86400000

/-- A `QTime`: milliseconds since midnight, `-1` for the null time. -/
structure QTime where
  /-- Milliseconds since midnight. -/
  mds : Int
deriving DecidableEq, Repr

namespace QTime

/-- The value of `mds` in a default-constructed `QTime`. -/
def NullTime : Int := -1

/-- The default-constructed `QTime()`. -/
def null : QTime := ⟨NullTime⟩

/-- The test `QTime::isNull`. -/
def isNull (t : QTime) : Bool := t.mds == NullTime

/-- The test `QTime::isValid`. -/
def isValid (t : QTime) : Bool := t.mds > NullTime && t.mds < MSECS_PER_DAY

/-- The value of `QTime::msecsTo`. -/
def msecsTo (self t : QTime) : Int :=
  if !self.isValid || !t.isValid then 0 else t.mds - self.mds

/-- The value of `QTime::elapsed()` when `QTime::currentTime()` answers `current`. -/
def elapsed (self current : QTime) : Int :=
  let n := self.msecsTo current
  if n < 0 then n + 86400 * 1000 else n

/-- The value of `QTime::currentTime()` at wall-clock reading `ms` (in milliseconds). -/
def currentTime (ms : Nat) : QTime := ⟨((ms % 86400000 : Nat) : Int)⟩

end QTime

/-- The languages of `QLocale::Language` that the handler names; every other
language is an `other`. -/
inductive Language
  | Arabic
  | Persian
  | Hindi
  | Korean
  | Thai
  | other (code : Nat)
deriving DecidableEq, Repr

/-- The input modes of `InputEngine::InputMode` that the handler names; every
other mode (Latin, Numeric, ...) is an `other`. -/
inductive InputMode
  | Pinyin
  | Cangjie
  | Zhuyin
  | Hiragana
  | Katakana
  | FullwidthLatin
  | Hebrew
  | ChineseHandwriting
  | JapaneseHandwriting
  | KoreanHandwriting
  | other (code : Nat)
deriving DecidableEq, Repr

/-! ### `Qt::InputMethodHint` bits -/

/-- The hint `Qt::ImhNoAutoUppercase`. -/
def ImhNoAutoUppercase : Nat := 0x4
/-- The hint `Qt::ImhPreferUppercase`. -/
def ImhPreferUppercase : Nat := 0x10
/-- The hint `Qt::ImhPreferLowercase`. -/
def ImhPreferLowercase : Nat := 0x20
/-- The hint `Qt::ImhDigitsOnly`. -/
def ImhDigitsOnly : Nat := 0x10000
/-- The hint `Qt::ImhFormattedNumbersOnly`. -/
def ImhFormattedNumbersOnly : Nat := 0x20000
/-- The hint `Qt::ImhUppercaseOnly`. -/
def ImhUppercaseOnly : Nat := 0x40000
/-- The hint `Qt::ImhLowercaseOnly`. -/
def ImhLowercaseOnly : Nat := 0x80000
/-- The hint `Qt::ImhDialableCharactersOnly`. -/
def ImhDialableCharactersOnly : Nat := 0x100000
/-- The hint `Qt::ImhEmailCharactersOnly`. -/
def ImhEmailCharactersOnly : Nat := 0x200000
/-- The hint `Qt::ImhUrlCharactersOnly`. -/
def ImhUrlCharactersOnly : Nat := 0x400000

/-- The truth value of `hints & mask`, as C++ converts the flags to `bool`. -/
def testFlags (hints mask : Nat) : Bool := (hints &&& mask) != 0

/-! ## The handler -/

/-- The signals of `ShiftHandler`. -/
inductive Signal
  | sentenceEndingCharactersChanged
  | autoCapitalizationEnabledChanged
  | toggleShiftEnabledChanged
  | shiftChanged
  | capsLockChanged
  | uppercaseChanged
deriving DecidableEq, Repr

/-- The mutable members of `ShiftHandlerPrivate`; `locale` keeps only the
language of the `QLocale`, the one part the handler reads. -/
structure ShiftHandlerPrivate where
  /-- Characters after which a sentence starts. -/
  sentenceEndingCharacters : QString
  /-- Policy flag. -/
  autoCapitalizationEnabled : Bool
  /-- Policy flag. -/
  toggleShiftEnabled : Bool
  /-- Shift state. -/
  shift : Bool
  /-- Set by every effective `setShift`, cleared at the end of a double-tap toggle. -/
  shiftChanged : Bool
  /-- Caps-lock state. -/
  capsLock : Bool
  /-- A reset is pending until the keyboard is visible. -/
  resetWhenVisible : Bool
  /-- Language of the stored locale. -/
  locale : Language
  /-- Time of the toggle that opened the double-tap window. -/
  timer : QTime
deriving DecidableEq, Repr

/-- The const member `manualShiftLanguageFilter`. -/
def manualShiftLanguageFilter : List Language :=
  [Language.Arabic, Language.Persian, Language.Hindi, Language.Korean, Language.Thai]

/-- The const member `manualCapsInputModeFilter`. -/
def manualCapsInputModeFilter : List InputMode :=
  [InputMode.Cangjie, InputMode.Zhuyin, InputMode.Hebrew]

/-- The const member `noAutoUppercaseInputModeFilter`. -/
def noAutoUppercaseInputModeFilter : List InputMode :=
  [InputMode.FullwidthLatin, InputMode.Pinyin, InputMode.Cangjie, InputMode.Zhuyin,
    InputMode.ChineseHandwriting, InputMode.JapaneseHandwriting, InputMode.KoreanHandwriting]

/-- The const member `allCapsInputModeFilter`. -/
def allCapsInputModeFilter : List InputMode :=
  [InputMode.Hiragana, InputMode.Katakana]

/-- The members after the constructor `ShiftHandlerPrivate()`; `systemLocale`
is the language of the default-constructed `QLocale`. U+00A1 and U+00BF are
`Qt::Key_exclamdown` and `Qt::Key_questiondown`. -/
def ShiftHandlerPrivate.constructed (systemLocale : Language) : ShiftHandlerPrivate where
  sentenceEndingCharacters := [0x2e, 0x21, 0x3f, 0xa1, 0xbf]
  autoCapitalizationEnabled := false
  toggleShiftEnabled := false
  shift := false
  shiftChanged := false
  capsLock := false
  resetWhenVisible := false
  locale := systemLocale
  timer := QTime.null

/-- What one slot invocation reads from outside the handler. -/
structure Collaborators where
  /-- Whether `inputContext->priv()->inputItem()` is non-null. -/
  inputItem : Bool
  /-- The value of `inputContext->inputMethodHints()`. -/
  inputMethodHints : Nat
  /-- The value of `inputContext->inputEngine()->inputMode()`. -/
  inputMode : InputMode
  /-- The value of `inputContext->preeditText()`. -/
  preeditText : QString
  /-- The value of `inputContext->surroundingText()`. -/
  surroundingText : QString
  /-- The value of `inputContext->cursorPosition()`. -/
  cursorPosition : Int
  /-- The language of `inputContext->locale()`. -/
  locale : Language
  /-- Whether `qGuiApp` is non-null. -/
  app : Bool
  /-- The value of `app->inputMethod()->isVisible()`. -/
  isVisible : Bool
  /-- The value of `style->mouseDoubleClickInterval()`. -/
  mouseDoubleClickInterval : Int
  /-- The wall clock at the first `QTime::currentTime()` of the invocation. -/
  clock1 : Nat
  /-- The wall clock at the second `QTime::currentTime()` of the invocation. -/
  clock2 : Nat
deriving DecidableEq, Repr

/-- The data after a slot and the signals it emitted, oldest first. -/
abbrev Outcome := ShiftHandlerPrivate × List Signal

/-- Sequencing of two statements: the second runs on the data left by the first. -/
def Outcome.andThen (r : Outcome) (f : ShiftHandlerPrivate → Outcome) : Outcome :=
  ((f r.1).1, r.2 ++ (f r.1).2)

/-- The getter `ShiftHandler::uppercase`. -/
def uppercase (d : ShiftHandlerPrivate) : Bool := d.shift || d.capsLock

/-- The slot `ShiftHandler::setShift`. -/
def setShift (d : ShiftHandlerPrivate) (enable : Bool) : Outcome :=
  if d.shift ≠ enable then
    ({ d with shift := enable, shiftChanged := true },
      Signal.shiftChanged :: (if !d.capsLock then [Signal.uppercaseChanged] else []))
  else (d, [])

/-- The slot `ShiftHandler::setCapsLock`. -/
def setCapsLock (d : ShiftHandlerPrivate) (enable : Bool) : Outcome :=
  if d.capsLock ≠ enable then
    ({ d with capsLock := enable },
      Signal.capsLockChanged :: (if !d.shift then [Signal.uppercaseChanged] else []))
  else (d, [])

/-- The slot `ShiftHandler::setAutoCapitalizationEnabled`. -/
def setAutoCapitalizationEnabled (d : ShiftHandlerPrivate) (enabled : Bool) : Outcome :=
  if d.autoCapitalizationEnabled ≠ enabled then
    ({ d with autoCapitalizationEnabled := enabled }, [Signal.autoCapitalizationEnabledChanged])
  else (d, [])

/-- The slot `ShiftHandler::setToggleShiftEnabled`. -/
def setToggleShiftEnabled (d : ShiftHandlerPrivate) (enabled : Bool) : Outcome :=
  if d.toggleShiftEnabled ≠ enabled then
    ({ d with toggleShiftEnabled := enabled }, [Signal.toggleShiftEnabledChanged])
  else (d, [])

/-- The timer block of the double-tap branch of `toggleShift` (the `if` /
`else if` on `d->timer`). The clock is read by `elapsed()` and by
`restart()`, so at most twice: `clock1` is the first reading, `clock2` the
second. -/
def toggleShiftTimer (c : Collaborators) (d : ShiftHandlerPrivate) : Outcome :=
  if d.timer.isNull then
    ({ d with timer := QTime.currentTime c.clock1 }, [])
  else if d.timer.elapsed (QTime.currentTime c.clock1) > c.mouseDoubleClickInterval then
    ({ d with timer := QTime.currentTime c.clock2 }, [])
  else if d.timer.elapsed (QTime.currentTime c.clock2) < c.mouseDoubleClickInterval
      ∧ !d.capsLock then
    setCapsLock d (!d.capsLock && d.shift && !d.shiftChanged)
  else (d, [])

/-- The third branch of `toggleShift`, the double-tap scheme (the final
`else` block). -/
def toggleShiftDoubleTap (c : Collaborators) (d : ShiftHandlerPrivate) : Outcome :=
  let r1 : Outcome :=
    if d.capsLock then setCapsLock d (!d.capsLock && d.shift && !d.shiftChanged) else (d, [])
  let r2 := r1.andThen (toggleShiftTimer c)
  let r3 := r2.andThen fun d2 => setShift d2 (d2.capsLock || !d2.shift)
  ({ r3.1 with shiftChanged := false }, r3.2)

/-- The slot `ShiftHandler::toggleShift`. -/
def toggleShift (c : Collaborators) (d : ShiftHandlerPrivate) : Outcome :=
  if !d.toggleShiftEnabled then (d, [])
  else if d.locale ∈ manualShiftLanguageFilter then
    (setCapsLock d false).andThen fun d1 => setShift d1 (!d1.shift)
  else if testFlags c.inputMethodHints ImhNoAutoUppercase
      ∨ c.inputMode ∈ manualCapsInputModeFilter then
    let capsLock := d.capsLock
    (setCapsLock d (!capsLock)).andThen fun d1 => setShift d1 (!capsLock)
  else
    toggleShiftDoubleTap c d

/-- The slot `ShiftHandler::clearToggleShiftTimer`. -/
def clearToggleShiftTimer (d : ShiftHandlerPrivate) : Outcome :=
  ({ d with timer := QTime.null }, [])

/-- The slot `ShiftHandler::autoCapitalize`. -/
def autoCapitalize (c : Collaborators) (d : ShiftHandlerPrivate) : Outcome :=
  if d.capsLock then (d, [])
  else if !d.autoCapitalizationEnabled ∨ !c.preeditText.isEmpty then
    setShift d false
  else
    let cursorPosition := c.cursorPosition
    let preferLowerCase := testFlags c.inputMethodHints ImhPreferLowercase
    if cursorPosition = 0 then
      setShift d (!preferLowerCase)
    else
      let text := trimmed (truncate c.surroundingText cursorPosition)
      if text.length = 0 then
        setShift d (!preferLowerCase)
      else if text.length > 0
          ∧ indexOf d.sentenceEndingCharacters (text.getD (text.length - 1) 0) ≥ 0 then
        setShift d (!preferLowerCase)
      else
        setShift d false

/-- The locals `preferUpperCase`, `autoCapitalizationEnabled` and
`toggleShiftEnabled` of `reset`, in this order, as they stand when the
setters are called. -/
def resetLocals (c : Collaborators) (d : ShiftHandlerPrivate) : Bool × Bool × Bool :=
  let inputMethodHints := c.inputMethodHints
  let inputMode := c.inputMode
  let preferUpperCase := testFlags inputMethodHints (ImhPreferUppercase ||| ImhUppercaseOnly)
  let autoCapitalizationEnabled :=
    !testFlags c.inputMethodHints (ImhNoAutoUppercase |||
      ImhUppercaseOnly ||| ImhLowercaseOnly ||| ImhEmailCharactersOnly |||
      ImhUrlCharactersOnly ||| ImhDialableCharactersOnly ||| ImhFormattedNumbersOnly |||
      ImhDigitsOnly) && !decide (inputMode ∈ noAutoUppercaseInputModeFilter)
  let toggleShiftEnabled := !testFlags inputMethodHints (ImhUppercaseOnly ||| ImhLowercaseOnly)
  if d.locale ∈ manualShiftLanguageFilter ∨ inputMode ∈ manualCapsInputModeFilter then
    (false, false, true)
  else if inputMode ∈ allCapsInputModeFilter then
    (true, false, false)
  else
    (preferUpperCase, autoCapitalizationEnabled, toggleShiftEnabled)

/-- The slot `ShiftHandler::reset`. -/
def reset (c : Collaborators) (d : ShiftHandlerPrivate) : Outcome :=
  if c.inputItem then
    let preferUpperCase := (resetLocals c d).1
    let autoCapitalizationEnabled := (resetLocals c d).2.1
    let toggleShiftEnabled := (resetLocals c d).2.2
    (((setToggleShiftEnabled d toggleShiftEnabled).andThen fun d1 =>
        setAutoCapitalizationEnabled d1 autoCapitalizationEnabled).andThen fun d2 =>
        setCapsLock d2 preferUpperCase).andThen fun d3 =>
      if preferUpperCase then setShift d3 preferUpperCase else autoCapitalize c d3
  else (d, [])

/-- The slot `ShiftHandler::restart`. -/
def restart (c : Collaborators) (d : ShiftHandlerPrivate) : Outcome :=
  if !c.app ∨ !c.isVisible then
    ({ d with resetWhenVisible := true }, [])
  else reset c d

/-- The slot `ShiftHandler::localeChanged`. -/
def localeChanged (c : Collaborators) (d : ShiftHandlerPrivate) : Outcome :=
  restart c { d with locale := c.locale }

/-- The slot `ShiftHandler::inputMethodVisibleChanged`. -/
def inputMethodVisibleChanged (c : Collaborators) (d : ShiftHandlerPrivate) : Outcome :=
  if !d.resetWhenVisible then (d, [])
  else if c.app ∧ c.isVisible then
    reset c { d with resetWhenVisible := false }
  else (d, [])

/-- The slot `ShiftHandler::setSentenceEndingCharacters`. -/
def setSentenceEndingCharacters (c : Collaborators) (d : ShiftHandlerPrivate)
    (value : QString) : Outcome :=
  if d.sentenceEndingCharacters ≠ value then
    let r := autoCapitalize c { d with sentenceEndingCharacters := value }
    (r.1, r.2 ++ [Signal.sentenceEndingCharactersChanged])
  else (d, [])

/-- Toggling is enabled and `toggleShift` takes its third branch, the
double-tap scheme. -/
def doubleTapBranch (c : Collaborators) (d : ShiftHandlerPrivate) : Prop :=
  d.toggleShiftEnabled = true ∧ d.locale ∉ manualShiftLanguageFilter ∧
    testFlags c.inputMethodHints ImhNoAutoUppercase = false ∧
    c.inputMode ∉ manualCapsInputModeFilter

instance (c : Collaborators) (d : ShiftHandlerPrivate) : Decidable (doubleTapBranch c d) := by
  unfold doubleTapBranch; infer_instance

/-- A run of `restart` notifications, one set of collaborator values each. -/
def restarts (cs : List Collaborators) (d : ShiftHandlerPrivate) : Outcome :=
  cs.foldl (fun r c => r.andThen (restart c)) (d, [])

/-! ## Runs of the handler -/

/-- The argument of the single `setShift` call that `autoCapitalize` makes
when caps lock is off, from the values the slot reads: the two members
`autoCapitalizationEnabled` and `sentenceEndingCharacters`, the pre-edit
text, the hints, the cursor position and the surrounding text truncated to
the cursor position. -/
def autoCapitalizeTarget (autoCapitalizationEnabled : Bool)
    (sentenceEndingCharacters preeditText : QString) (inputMethodHints : Nat)
    (cursorPosition : Int) (textBeforeCursor : QString) : Bool :=
  if !autoCapitalizationEnabled ∨ !preeditText.isEmpty then false
  else if cursorPosition = 0 then !testFlags inputMethodHints ImhPreferLowercase
  else if (trimmed textBeforeCursor).length = 0 then
    !testFlags inputMethodHints ImhPreferLowercase
  else if (trimmed textBeforeCursor).length > 0
      ∧ indexOf sentenceEndingCharacters
          ((trimmed textBeforeCursor).getD ((trimmed textBeforeCursor).length - 1) 0) ≥ 0 then
    !testFlags inputMethodHints ImhPreferLowercase
  else false

/-- The slots that the outside world invokes on the handler: the public
commands and the slots wired to collaborator notifications in `init`. -/
inductive Command
  | reset
  | restart
  | inputMethodVisibleChanged
  | localeChanged
  | autoCapitalize
  | setSentenceEndingCharacters (value : QString)
  | toggleShift
  | clearToggleShiftTimer
deriving DecidableEq, Repr

/-- One invocation: the slot named by the command, under the collaborator
values `c`. -/
def step (c : Collaborators) (cmd : Command) (d : ShiftHandlerPrivate) : Outcome :=
  match cmd with
  | Command.reset => reset c d
  | Command.restart => restart c d
  | Command.inputMethodVisibleChanged => inputMethodVisibleChanged c d
  | Command.localeChanged => localeChanged c d
  | Command.autoCapitalize => autoCapitalize c d
  | Command.setSentenceEndingCharacters value => setSentenceEndingCharacters c d value
  | Command.toggleShift => toggleShift c d
  | Command.clearToggleShiftTimer => clearToggleShiftTimer d

/-- The data after a sequence of invocations, each under its own
collaborator values, oldest first. -/
def run (events : List (Command × Collaborators)) (d : ShiftHandlerPrivate) :
    ShiftHandlerPrivate :=
  events.foldl (fun d e => (step e.2 e.1 d).1) d

/-- The number of `uppercaseChanged` signals among the emitted ones. -/
def uppercaseChangedCount (emitted : List Signal) : Nat :=
  emitted.count Signal.uppercaseChanged

/-- Caps lock on implies shift on. -/
def capsLockImpliesShift (d : ShiftHandlerPrivate) : Prop :=
  d.capsLock = true → d.shift = true

instance (d : ShiftHandlerPrivate) : Decidable (capsLockImpliesShift d) := by
  unfold capsLockImpliesShift; infer_instance

/-- The data `d` is what some sequence of invocations leaves, starting from
the freshly constructed handler. -/
def Reachable (d : ShiftHandlerPrivate) : Prop :=
  ∃ (systemLocale : Language) (events : List (Command × Collaborators)),
    d = run events (ShiftHandlerPrivate.constructed systemLocale)

/-- The outcome `r` of a slot invoked on `d` holds `uppercaseChanged` at most
once, and holds it exactly when `uppercase` differs between `d` and the data
after the slot. -/
def uppercaseNotifiedExactly (d : ShiftHandlerPrivate) (r : Outcome) : Prop :=
  uppercaseChangedCount r.2 ≤ 1 ∧
    (Signal.uppercaseChanged ∈ r.2 ↔ uppercase r.1 ≠ uppercase d)

/-! ## Sample inputs -/

/-- A plain Latin text field on a visible keyboard, with the clock read at
`ms`; the double-click interval is 400 ms. -/
def latinField (ms : Nat) : Collaborators where
  inputItem := true
  inputMethodHints := 0
  inputMode := InputMode.other 0
  preeditText := []
  surroundingText := []
  cursorPosition := 0
  locale := Language.other 0
  app := true
  isVisible := true
  mouseDoubleClickInterval := 400
  clock1 := ms
  clock2 := ms

/-- A handler ready for typing in a language outside the filters: both
policies on, lower case, no timestamp. -/
def readyHandler : ShiftHandlerPrivate :=
  { ShiftHandlerPrivate.constructed (Language.other 0) with
    autoCapitalizationEnabled := true, toggleShiftEnabled := true }

/-- A handler ready for typing whose stored locale is Arabic. -/
def arabicHandler : ShiftHandlerPrivate :=
  { ShiftHandlerPrivate.constructed Language.Arabic with toggleShiftEnabled := true }

/-- A text field with default hints while the input mode is Katakana. -/
def katakanaField : Collaborators :=
  { latinField 0 with inputMode := InputMode.Katakana }

/-- A text field whose hints are `Qt::ImhNoAutoUppercase` alone. -/
def noAutoUppercaseField : Collaborators :=
  { latinField 0 with inputMethodHints := ImhNoAutoUppercase }

/-- A text field holding `text` with the cursor at `cursor`. -/
def textField (text : QString) (cursor : Int) : Collaborators :=
  { latinField 0 with surroundingText := text, cursorPosition := cursor }

/-- A keyboard that is hidden, over the text field `c`. -/
def hidden (c : Collaborators) : Collaborators :=
  { c with isVisible := false }

/-- A handler after a first tap at 1000 ms in the double-tap branch: shift
on, caps lock off, no shift change recorded, timestamp 1000. -/
def tappedHandler : ShiftHandlerPrivate :=
  { readyHandler with shift := true, timer := ⟨1000⟩ }

/-- A handler after a double tap: shift and caps lock on, no shift change
recorded, timestamp 1000. -/
def lockedHandler : ShiftHandlerPrivate :=
  { readyHandler with shift := true, capsLock := true, timer := ⟨1000⟩ }

/-- A session: the handler is constructed, reset over a Latin text field,
and the shift key is tapped at 1000 ms. -/
def sampleSession : List (Command × Collaborators) :=
  [(Command.reset, latinField 0), (Command.toggleShift, latinField 1000)]

/-- A Latin text field on a visible keyboard during an invocation in which
the clock reads `first` and then `second`; the double-click interval is
400 ms. -/
def tickingField (first second : Nat) : Collaborators :=
  { latinField first with clock2 := second }

/-! ## Auxiliary facts -/

theorem currentTime_isNull (ms : Nat) : (QTime.currentTime ms).isNull = false := by
  simp only [QTime.currentTime, QTime.isNull, QTime.NullTime, beq_eq_false_iff_ne, ne_eq]
  omega

theorem toggleShift_of_doubleTapBranch (c : Collaborators) (d : ShiftHandlerPrivate)
    (h : doubleTapBranch c d) : toggleShift c d = toggleShiftDoubleTap c d := by
  obtain ⟨h1, h2, h3, h4⟩ := h
  simp [toggleShift, h1, h2, h3, h4]

/-- A toggle in the double-tap branch that restarts the timer. -/
theorem toggleShiftDoubleTap_slow (c : Collaborators) (d : ShiftHandlerPrivate)
    (hs : d.timer.isNull = true ∨
      d.timer.elapsed (QTime.currentTime c.clock1) > c.mouseDoubleClickInterval) :
    (toggleShiftDoubleTap c d).1.shift = (!d.shift) ∧
    (toggleShiftDoubleTap c d).1.capsLock = false ∧
    (toggleShiftDoubleTap c d).1.timer.isNull = false := by
  obtain ⟨sec, ace, tse, sh, shc, cl, rwv, loc, tm⟩ := d
  simp only at hs
  rcases hs with hs | hs
  · cases cl <;> cases sh <;>
      simp [toggleShiftDoubleTap, toggleShiftTimer, setCapsLock, setShift, Outcome.andThen, hs,
        currentTime_isNull]
  · by_cases hn : tm.isNull = true
    · cases cl <;> cases sh <;>
        simp [toggleShiftDoubleTap, toggleShiftTimer, setCapsLock, setShift, Outcome.andThen, hn,
          currentTime_isNull]
    · cases cl <;> cases sh <;>
        simp [toggleShiftDoubleTap, toggleShiftTimer, setCapsLock, setShift, Outcome.andThen, hn,
          hs, currentTime_isNull]

theorem toggleShiftDoubleTap_post (c : Collaborators) (d : ShiftHandlerPrivate) :
    (toggleShiftDoubleTap c d).1.timer.isNull = false ∧
    (toggleShiftDoubleTap c d).1.shiftChanged = false ∧
    (toggleShiftDoubleTap c d).1.toggleShiftEnabled = d.toggleShiftEnabled ∧
    (toggleShiftDoubleTap c d).1.locale = d.locale := by
  obtain ⟨sec, ace, tse, sh, shc, cl, rwv, loc, tm⟩ := d
  by_cases hn : tm.isNull = true
  · cases cl <;> cases sh <;> cases shc <;>
      simp [toggleShiftDoubleTap, toggleShiftTimer, setCapsLock, setShift, Outcome.andThen, hn,
        currentTime_isNull]
  · by_cases h1 : tm.elapsed (QTime.currentTime c.clock1) > c.mouseDoubleClickInterval
    · cases cl <;> cases sh <;> cases shc <;>
        simp [toggleShiftDoubleTap, toggleShiftTimer, setCapsLock, setShift, Outcome.andThen, hn,
          h1, currentTime_isNull]
    · by_cases h2 : tm.elapsed (QTime.currentTime c.clock2) < c.mouseDoubleClickInterval
      · cases cl <;> cases sh <;> cases shc <;>
          simp [toggleShiftDoubleTap, toggleShiftTimer, setCapsLock, setShift, Outcome.andThen, hn,
            h1, h2, currentTime_isNull]
      · cases cl <;> cases sh <;> cases shc <;>
          simp [toggleShiftDoubleTap, toggleShiftTimer, setCapsLock, setShift, Outcome.andThen, hn,
            h1, h2, currentTime_isNull]

/-- A toggle in the double-tap branch inside the window, entered with shift on and no shift change
recorded. -/
theorem toggleShiftDoubleTap_fast (c : Collaborators) (d : ShiftHandlerPrivate)
    (hsh : d.shift = true) (hch : d.shiftChanged = false) (hn : d.timer.isNull = false)
    (h1 : d.timer.elapsed (QTime.currentTime c.clock1) < c.mouseDoubleClickInterval)
    (h2 : d.timer.elapsed (QTime.currentTime c.clock2) < c.mouseDoubleClickInterval) :
    (toggleShiftDoubleTap c d).1.capsLock = true ∧ (toggleShiftDoubleTap c d).1.shift = true := by
  obtain ⟨sec, ace, tse, sh, shc, cl, rwv, loc, tm⟩ := d
  simp only at hsh hch hn h1 h2
  subst hsh hch
  have h1n : ¬ (c.mouseDoubleClickInterval < tm.elapsed (QTime.currentTime c.clock1)) := by omega
  cases cl <;>
    simp [toggleShiftDoubleTap, toggleShiftTimer, setCapsLock, setShift, Outcome.andThen, hn,
      h1n, h2]

theorem lor_eq_zero (x y : Nat) : x ||| y = 0 ↔ x = 0 ∧ y = 0 := by
  constructor
  · intro h
    have key : ∀ i, (x.testBit i || y.testBit i) = false := by
      intro i
      rw [← Nat.testBit_or, h, Nat.zero_testBit]
    constructor
    · apply Nat.eq_of_testBit_eq
      intro i
      have := key i
      simp only [Bool.or_eq_false_iff] at this
      rw [this.1, Nat.zero_testBit]
    · apply Nat.eq_of_testBit_eq
      intro i
      have := key i
      simp only [Bool.or_eq_false_iff] at this
      rw [this.2, Nat.zero_testBit]
  · rintro ⟨rfl, rfl⟩
    rfl

/-- A mask that is a union is hit exactly when one of its parts is. -/
theorem testFlags_or (h a b : Nat) :
    testFlags h (a ||| b) = (testFlags h a || testFlags h b) := by
  unfold testFlags
  rw [Nat.and_or_distrib_left, Bool.eq_iff_iff]
  simp only [bne_iff_ne, Bool.or_eq_true, Ne, lor_eq_zero]
  tauto

theorem setShift_fst (d : ShiftHandlerPrivate) (v : Bool) :
    (setShift d v).1 = { d with shift := v, shiftChanged := d.shiftChanged || (d.shift != v) } := by
  obtain ⟨sec, ace, tse, sh, shc, cl, rwv, loc, tm⟩ := d
  cases sh <;> cases v <;> simp [setShift]

theorem setCapsLock_fst (d : ShiftHandlerPrivate) (v : Bool) :
    (setCapsLock d v).1 = { d with capsLock := v } := by
  obtain ⟨sec, ace, tse, sh, shc, cl, rwv, loc, tm⟩ := d
  cases cl <;> cases v <;> simp [setCapsLock]

theorem setToggleShiftEnabled_fst (d : ShiftHandlerPrivate) (v : Bool) :
    (setToggleShiftEnabled d v).1 = { d with toggleShiftEnabled := v } := by
  obtain ⟨sec, ace, tse, sh, shc, cl, rwv, loc, tm⟩ := d
  cases tse <;> cases v <;> simp [setToggleShiftEnabled]

theorem setAutoCapitalizationEnabled_fst (d : ShiftHandlerPrivate) (v : Bool) :
    (setAutoCapitalizationEnabled d v).1 = { d with autoCapitalizationEnabled := v } := by
  obtain ⟨sec, ace, tse, sh, shc, cl, rwv, loc, tm⟩ := d
  cases ace <;> cases v <;> simp [setAutoCapitalizationEnabled]

/-- The slot `autoCapitalize` is a single `setShift`, or nothing under caps lock. -/
theorem autoCapitalize_cases (c : Collaborators) (d : ShiftHandlerPrivate) :
    (d.capsLock = true ∧ autoCapitalize c d = (d, [])) ∨
      (d.capsLock = false ∧ ∃ v, autoCapitalize c d = setShift d v) := by
  by_cases hc : d.capsLock = true
  · left
    exact ⟨hc, by simp [autoCapitalize, hc]⟩
  · right
    refine ⟨by simpa using hc, ?_⟩
    unfold autoCapitalize
    simp only [hc, Bool.false_eq_true, if_false]
    split
    · exact ⟨_, rfl⟩
    · split
      · exact ⟨_, rfl⟩
      · split
        · exact ⟨_, rfl⟩
        · split
          · exact ⟨_, rfl⟩
          · exact ⟨_, rfl⟩

/-- The slot `autoCapitalize` writes `shift` and `shiftChanged` only. -/
theorem autoCapitalize_frame (c : Collaborators) (d : ShiftHandlerPrivate) :
    (autoCapitalize c d).1.capsLock = d.capsLock ∧
    (autoCapitalize c d).1.autoCapitalizationEnabled = d.autoCapitalizationEnabled ∧
    (autoCapitalize c d).1.toggleShiftEnabled = d.toggleShiftEnabled ∧
    (autoCapitalize c d).1.resetWhenVisible = d.resetWhenVisible ∧
    (autoCapitalize c d).1.sentenceEndingCharacters = d.sentenceEndingCharacters ∧
    (autoCapitalize c d).1.locale = d.locale ∧
    (autoCapitalize c d).1.timer = d.timer := by
  rcases autoCapitalize_cases c d with ⟨_, h⟩ | ⟨_, v, h⟩
  · simp [h]
  · simp [h, setShift_fst]

theorem autoCapitalize_disabled (c : Collaborators) (d : ShiftHandlerPrivate)
    (hc : d.capsLock = false) (ha : d.autoCapitalizationEnabled = false) :
    (autoCapitalize c d).1.shift = false := by
  simp [autoCapitalize, hc, ha, setShift_fst]

/-- The data after `reset` on an attached input item. -/
theorem reset_fst (c : Collaborators) (d : ShiftHandlerPrivate) (hitem : c.inputItem = true) :
    (reset c d).1 =
      (if (resetLocals c d).1 = true then
        setShift { d with toggleShiftEnabled := (resetLocals c d).2.2,
                          autoCapitalizationEnabled := (resetLocals c d).2.1,
                          capsLock := (resetLocals c d).1 } (resetLocals c d).1
      else
        autoCapitalize c { d with toggleShiftEnabled := (resetLocals c d).2.2,
                                  autoCapitalizationEnabled := (resetLocals c d).2.1,
                                  capsLock := (resetLocals c d).1 }).1 := by
  simp only [reset, hitem, if_true, Outcome.andThen, setToggleShiftEnabled_fst,
    setAutoCapitalizationEnabled_fst, setCapsLock_fst]

/-- The policy flags and caps lock after `reset` are the three locals. -/
theorem reset_fields (c : Collaborators) (d : ShiftHandlerPrivate) (hitem : c.inputItem = true) :
    (reset c d).1.capsLock = (resetLocals c d).1 ∧
    (reset c d).1.autoCapitalizationEnabled = (resetLocals c d).2.1 ∧
    (reset c d).1.toggleShiftEnabled = (resetLocals c d).2.2 ∧
    ((resetLocals c d).1 = true → (reset c d).1.shift = true) ∧
    ((resetLocals c d).1 = false → (resetLocals c d).2.1 = false →
      (reset c d).1.shift = false) := by
  rw [reset_fst c d hitem]
  generalize resetLocals c d = L
  obtain ⟨p, a, t⟩ := L
  cases p
  · simp only [Bool.false_eq_true, if_false, false_implies, true_implies, true_and]
    refine ⟨(autoCapitalize_frame c _).1, (autoCapitalize_frame c _).2.1,
      (autoCapitalize_frame c _).2.2.1, ?_⟩
    intro ha
    subst ha
    exact autoCapitalize_disabled c _ rfl rfl
  · simp [setShift_fst]

theorem indexOf_nonneg_iff (s : QString) (ch : QChar) : indexOf s ch ≥ 0 ↔ ch ∈ s := by
  unfold indexOf
  by_cases h : ch ∈ s
  · simp [h]
  · simp [h]

theorem getD_last_eq (text : QString) (ch : QChar) (h : text.getLast? = some ch) :
    text.getD (text.length - 1) 0 = ch := by
  rw [List.getLast?_eq_getElem?] at h
  rw [List.getD_eq_getElem?_getD, h]
  rfl

/-- The test of line 307 says that the text ends in a sentence-ending character. -/
theorem lastChar_test_iff (text sec : QString) :
    (text.length > 0 ∧ indexOf sec (text.getD (text.length - 1) 0) ≥ 0) ↔
      ∃ ch ∈ sec, text.getLast? = some ch := by
  rw [indexOf_nonneg_iff]
  constructor
  · rintro ⟨hlen, hmem⟩
    have hne : text ≠ [] := List.ne_nil_of_length_pos hlen
    refine ⟨text.getLast hne, ?_, List.getLast?_eq_getLast _ hne⟩
    rw [getD_last_eq text _ (List.getLast?_eq_getLast _ hne)] at hmem
    exact hmem
  · rintro ⟨ch, hmem, hlast⟩
    have hne : text ≠ [] := by
      rintro rfl
      simp at hlast
    refine ⟨List.length_pos.mpr hne, ?_⟩
    rw [getD_last_eq text ch hlast]
    exact hmem

theorem setShift_resetWhenVisible (d : ShiftHandlerPrivate) (v b : Bool) :
    setShift { d with resetWhenVisible := b } v =
      ({ (setShift d v).1 with resetWhenVisible := b }, (setShift d v).2) := by
  unfold setShift
  split_ifs <;> rfl

theorem setCapsLock_resetWhenVisible (d : ShiftHandlerPrivate) (v b : Bool) :
    setCapsLock { d with resetWhenVisible := b } v =
      ({ (setCapsLock d v).1 with resetWhenVisible := b }, (setCapsLock d v).2) := by
  unfold setCapsLock
  split_ifs <;> rfl

theorem setToggleShiftEnabled_resetWhenVisible (d : ShiftHandlerPrivate) (v b : Bool) :
    setToggleShiftEnabled { d with resetWhenVisible := b } v =
      ({ (setToggleShiftEnabled d v).1 with resetWhenVisible := b },
        (setToggleShiftEnabled d v).2) := by
  unfold setToggleShiftEnabled
  split_ifs <;> rfl

theorem setAutoCapitalizationEnabled_resetWhenVisible (d : ShiftHandlerPrivate) (v b : Bool) :
    setAutoCapitalizationEnabled { d with resetWhenVisible := b } v =
      ({ (setAutoCapitalizationEnabled d v).1 with resetWhenVisible := b },
        (setAutoCapitalizationEnabled d v).2) := by
  unfold setAutoCapitalizationEnabled
  split_ifs <;> rfl

theorem autoCapitalize_resetWhenVisible (c : Collaborators) (d : ShiftHandlerPrivate)
    (b : Bool) :
    autoCapitalize c { d with resetWhenVisible := b } =
      ({ (autoCapitalize c d).1 with resetWhenVisible := b }, (autoCapitalize c d).2) := by
  unfold autoCapitalize
  simp only [setShift_resetWhenVisible]
  split_ifs <;> rfl

/-- The slot `reset` neither reads nor writes `resetWhenVisible`. -/
theorem reset_resetWhenVisible (c : Collaborators) (d : ShiftHandlerPrivate) (b : Bool) :
    reset c { d with resetWhenVisible := b } =
      ({ (reset c d).1 with resetWhenVisible := b }, (reset c d).2) := by
  have hL : resetLocals c { d with resetWhenVisible := b } = resetLocals c d := rfl
  unfold reset
  simp only [hL, Outcome.andThen, setToggleShiftEnabled_resetWhenVisible,
    setAutoCapitalizationEnabled_resetWhenVisible, setCapsLock_resetWhenVisible,
    setShift_resetWhenVisible, autoCapitalize_resetWhenVisible]
  split_ifs <;> rfl

theorem reset_after_deferral (c : Collaborators) (d : ShiftHandlerPrivate) :
    reset c { d with resetWhenVisible := false } =
      ({ (reset c { d with resetWhenVisible := true }).1 with resetWhenVisible := false },
        (reset c { d with resetWhenVisible := true }).2) := by
  rw [reset_resetWhenVisible c d true, reset_resetWhenVisible c d false]

theorem restart_hidden (c : Collaborators) (d : ShiftHandlerPrivate)
    (h : c.app = false ∨ c.isVisible = false) :
    restart c d = ({ d with resetWhenVisible := true }, []) := by
  unfold restart
  rcases h with h | h <;> simp [h]

theorem restarts_hidden_aux (cs : List Collaborators)
    (hhidden : ∀ x ∈ cs, x.app = false ∨ x.isVisible = false) (r : Outcome) :
    cs.foldl (fun r c => r.andThen (restart c)) r =
      if cs = [] then r else ({ r.1 with resetWhenVisible := true }, r.2) := by
  induction cs generalizing r with
  | nil => simp
  | cons x xs ih =>
    rw [List.foldl_cons, ih (fun y hy => hhidden y (List.mem_cons_of_mem _ hy))]
    have hx := restart_hidden x r.1 (hhidden x (List.mem_cons_self _ _))
    by_cases hxs : xs = []
    · simp [hxs, Outcome.andThen, hx]
    · simp [hxs, Outcome.andThen, hx]

theorem autoCapitalize_eq (c : Collaborators) (d : ShiftHandlerPrivate) :
    autoCapitalize c d =
      if d.capsLock then (d, [])
      else setShift d (autoCapitalizeTarget d.autoCapitalizationEnabled
        d.sentenceEndingCharacters c.preeditText c.inputMethodHints c.cursorPosition
        (truncate c.surroundingText c.cursorPosition)) := by
  unfold autoCapitalize autoCapitalizeTarget
  dsimp only
  split_ifs <;> rfl

theorem setShift_snd (d : ShiftHandlerPrivate) (v : Bool) :
    (setShift d v).2 =
      if d.shift = v then [] else
        Signal.shiftChanged :: (if d.capsLock then [] else [Signal.uppercaseChanged]) := by
  obtain ⟨sec, ace, tse, sh, shc, cl, rwv, loc, tm⟩ := d
  cases sh <;> cases v <;> cases cl <;> simp [setShift]

theorem setCapsLock_snd (d : ShiftHandlerPrivate) (v : Bool) :
    (setCapsLock d v).2 =
      if d.capsLock = v then [] else
        Signal.capsLockChanged :: (if d.shift then [] else [Signal.uppercaseChanged]) := by
  obtain ⟨sec, ace, tse, sh, shc, cl, rwv, loc, tm⟩ := d
  cases sh <;> cases v <;> cases cl <;> simp [setCapsLock]

/-- The slot `autoCapitalize` emits `uppercaseChanged` once when `uppercase`
changes and never otherwise. -/
theorem autoCapitalize_uppercase_once (c : Collaborators) (d : ShiftHandlerPrivate) :
    uppercaseChangedCount (autoCapitalize c d).2 =
      if uppercase (autoCapitalize c d).1 ≠ uppercase d then 1 else 0 := by
  rw [autoCapitalize_eq]
  generalize autoCapitalizeTarget _ _ _ _ _ _ = v
  obtain ⟨sec, ace, tse, sh, shc, cl, rwv, loc, tm⟩ := d
  cases sh <;> cases cl <;> cases v <;>
    simp [setShift, uppercase, uppercaseChangedCount]

/-- With caps lock implying shift, `reset` emits `uppercaseChanged` once when
`uppercase` changes and never otherwise. -/
theorem reset_uppercase_once (c : Collaborators) (d : ShiftHandlerPrivate)
    (hinv : d.capsLock = true → d.shift = true) :
    uppercaseChangedCount (reset c d).2 =
      if uppercase (reset c d).1 ≠ uppercase d then 1 else 0 := by
  by_cases hitem : c.inputItem = true
  · simp only [reset, hitem, if_true, Outcome.andThen, autoCapitalize_eq]
    generalize resetLocals c d = L
    obtain ⟨p, a, t⟩ := L
    dsimp only
    generalize autoCapitalizeTarget _ _ _ _ _ _ = v
    obtain ⟨sec, ace, tse, sh, shc, cl, rwv, loc, tm⟩ := d
    cases sh <;> cases cl <;> simp at hinv <;>
      cases p <;> cases v <;> cases tse <;> cases t <;> cases ace <;> cases a <;>
      simp [setShift, setCapsLock, setToggleShiftEnabled, setAutoCapitalizationEnabled,
        uppercase, uppercaseChangedCount]
  · simp [reset, hitem, uppercaseChangedCount]

/-- With caps lock implying shift, `toggleShift` emits `uppercaseChanged` once
when `uppercase` changes and never otherwise. -/
theorem toggleShift_uppercase_once (c : Collaborators) (d : ShiftHandlerPrivate)
    (hinv : d.capsLock = true → d.shift = true) :
    uppercaseChangedCount (toggleShift c d).2 =
      if uppercase (toggleShift c d).1 ≠ uppercase d then 1 else 0 := by
  obtain ⟨sec, ace, tse, sh, shc, cl, rwv, loc, tm⟩ := d
  simp only at hinv
  unfold toggleShift
  cases tse
  · simp [uppercaseChangedCount]
  · by_cases hl : loc ∈ manualShiftLanguageFilter
    · cases sh <;> cases cl <;> simp at hinv <;>
        simp [hl, setShift, setCapsLock, Outcome.andThen, uppercase, uppercaseChangedCount]
    · by_cases hb : testFlags c.inputMethodHints ImhNoAutoUppercase = true
          ∨ c.inputMode ∈ manualCapsInputModeFilter
      · cases sh <;> cases cl <;> simp at hinv <;>
          simp [hl, hb, setShift, setCapsLock, Outcome.andThen, uppercase,
            uppercaseChangedCount]
      · simp only [hl, hb, Bool.not_true, Bool.false_eq_true, if_false]
        unfold toggleShiftDoubleTap toggleShiftTimer
        by_cases hn : tm.isNull = true
        · cases sh <;> cases cl <;> simp at hinv <;> cases shc <;>
            simp [hn, setShift, setCapsLock, Outcome.andThen, uppercase,
              uppercaseChangedCount]
        · by_cases h1 : tm.elapsed (QTime.currentTime c.clock1) > c.mouseDoubleClickInterval
          · cases sh <;> cases cl <;> simp at hinv <;> cases shc <;>
              simp [hn, h1, setShift, setCapsLock, Outcome.andThen, uppercase,
                uppercaseChangedCount]
          · by_cases h2 : tm.elapsed (QTime.currentTime c.clock2) < c.mouseDoubleClickInterval
            · cases sh <;> cases cl <;> simp at hinv <;> cases shc <;>
                simp [hn, h1, h2, setShift, setCapsLock, Outcome.andThen, uppercase,
                  uppercaseChangedCount]
            · cases sh <;> cases cl <;> simp at hinv <;> cases shc <;>
                simp [hn, h1, h2, setShift, setCapsLock, Outcome.andThen, uppercase,
                  uppercaseChangedCount]

theorem reset_capsLockImpliesShift (c : Collaborators) (d : ShiftHandlerPrivate)
    (hinv : capsLockImpliesShift d) : capsLockImpliesShift (reset c d).1 := by
  by_cases hitem : c.inputItem = true
  · obtain ⟨hc, _, _, hs, _⟩ := reset_fields c d hitem
    intro h
    exact hs (hc ▸ h)
  · have : reset c d = (d, []) := by simp [reset, hitem]
    rw [this]
    exact hinv

theorem autoCapitalize_capsLockImpliesShift (c : Collaborators) (d : ShiftHandlerPrivate)
    (hinv : capsLockImpliesShift d) : capsLockImpliesShift (autoCapitalize c d).1 := by
  rcases autoCapitalize_cases c d with ⟨_, h⟩ | ⟨hc, v, h⟩
  · rw [h]
    exact hinv
  · rw [h, setShift_fst]
    intro hcl
    simp [hc] at hcl

theorem toggleShift_capsLockImpliesShift (c : Collaborators) (d : ShiftHandlerPrivate)
    (hinv : capsLockImpliesShift d) : capsLockImpliesShift (toggleShift c d).1 := by
  obtain ⟨sec, ace, tse, sh, shc, cl, rwv, loc, tm⟩ := d
  unfold capsLockImpliesShift at hinv ⊢
  simp only at hinv
  unfold toggleShift
  cases tse
  · simpa using hinv
  · by_cases hl : loc ∈ manualShiftLanguageFilter
    · simp [hl, Outcome.andThen, setShift_fst, setCapsLock_fst]
    · by_cases hb : testFlags c.inputMethodHints ImhNoAutoUppercase = true
          ∨ c.inputMode ∈ manualCapsInputModeFilter
      · simp [hl, hb, Outcome.andThen, setShift_fst, setCapsLock_fst]
      · simp only [hl, hb, Bool.not_true, Bool.false_eq_true, if_false]
        unfold toggleShiftDoubleTap
        simp only [Outcome.andThen, setShift_fst]
        intro h
        simp [h]

/-- Every slot keeps "caps lock implies shift". -/
theorem step_capsLockImpliesShift (c : Collaborators) (cmd : Command)
    (d : ShiftHandlerPrivate) (hinv : capsLockImpliesShift d) :
    capsLockImpliesShift (step c cmd d).1 := by
  cases cmd with
  | reset => exact reset_capsLockImpliesShift c d hinv
  | restart =>
    simp only [step, restart]
    split_ifs
    · exact hinv
    · exact reset_capsLockImpliesShift c d hinv
  | inputMethodVisibleChanged =>
    simp only [step, inputMethodVisibleChanged]
    split_ifs
    · exact hinv
    · exact reset_capsLockImpliesShift c _ hinv
    · exact hinv
  | localeChanged =>
    simp only [step, localeChanged, restart]
    split_ifs
    · exact hinv
    · exact reset_capsLockImpliesShift c _ hinv
  | autoCapitalize => exact autoCapitalize_capsLockImpliesShift c d hinv
  | setSentenceEndingCharacters value =>
    simp only [step, setSentenceEndingCharacters]
    split_ifs
    · exact autoCapitalize_capsLockImpliesShift c _ hinv
    · exact hinv
  | toggleShift => exact toggleShift_capsLockImpliesShift c d hinv
  | clearToggleShiftTimer => exact hinv

/-- Every run keeps "caps lock implies shift". -/
theorem run_capsLockImpliesShift (events : List (Command × Collaborators))
    (d : ShiftHandlerPrivate) (hinv : capsLockImpliesShift d) :
    capsLockImpliesShift (run events d) := by
  induction events generalizing d with
  | nil => exact hinv
  | cons e es ih =>
    unfold run
    rw [List.foldl_cons]
    exact ih _ (step_capsLockImpliesShift e.2 e.1 d hinv)

theorem uppercaseNotifiedExactly_of_count (d : ShiftHandlerPrivate) (r : Outcome)
    (h : uppercaseChangedCount r.2 = if uppercase r.1 ≠ uppercase d then 1 else 0) :
    uppercaseNotifiedExactly d r := by
  unfold uppercaseNotifiedExactly
  have hmem : Signal.uppercaseChanged ∈ r.2 ↔ 0 < uppercaseChangedCount r.2 := by
    unfold uppercaseChangedCount
    exact List.count_pos_iff.symm
  rw [hmem, h]
  by_cases hc : uppercase r.1 ≠ uppercase d
  · simp [hc]
  · simp [hc]

theorem reachable_capsLockImpliesShift (d : ShiftHandlerPrivate) (hreach : Reachable d) :
    capsLockImpliesShift d := by
  obtain ⟨loc, events, rfl⟩ := hreach
  apply run_capsLockImpliesShift
  intro h
  simp [ShiftHandlerPrivate.constructed] at h

/-- The timestamp left by a toggle in the double-tap branch. -/
theorem toggleShiftDoubleTap_timer (c : Collaborators) (d : ShiftHandlerPrivate) :
    (toggleShiftDoubleTap c d).1.timer =
      if d.timer.isNull = true then QTime.currentTime c.clock1
      else if d.timer.elapsed (QTime.currentTime c.clock1) > c.mouseDoubleClickInterval then
        QTime.currentTime c.clock2
      else d.timer := by
  obtain ⟨sec, ace, tse, sh, shc, cl, rwv, loc, tm⟩ := d
  unfold toggleShiftDoubleTap toggleShiftTimer
  by_cases hn : tm.isNull = true
  · cases cl <;> simp [hn, Outcome.andThen, setShift_fst, setCapsLock_fst]
  · by_cases h1 : tm.elapsed (QTime.currentTime c.clock1) > c.mouseDoubleClickInterval
    · cases cl <;> simp [hn, h1, Outcome.andThen, setShift_fst, setCapsLock_fst]
    · by_cases h2 : tm.elapsed (QTime.currentTime c.clock2) < c.mouseDoubleClickInterval
      · cases cl <;> simp [hn, h1, h2, Outcome.andThen, setShift_fst, setCapsLock_fst]
      · cases cl <;> simp [hn, h1, h2, Outcome.andThen, setShift_fst, setCapsLock_fst]

/-- A toggle in the double-tap branch entered with caps lock on: caps lock
is cleared on line 229 and set again by line 237 exactly under `relock`. -/
theorem toggleShiftDoubleTap_locked_entry (c : Collaborators) (d : ShiftHandlerPrivate)
    (hcaps : d.capsLock = true) :
    ((d.shift = true ∧ d.shiftChanged = false ∧ d.timer.isNull = false ∧
        d.timer.elapsed (QTime.currentTime c.clock1) ≤ c.mouseDoubleClickInterval ∧
        d.timer.elapsed (QTime.currentTime c.clock2) < c.mouseDoubleClickInterval) →
      (toggleShiftDoubleTap c d).1.capsLock = true ∧
      (toggleShiftDoubleTap c d).1.shift = true) ∧
    (¬ (d.shift = true ∧ d.shiftChanged = false ∧ d.timer.isNull = false ∧
        d.timer.elapsed (QTime.currentTime c.clock1) ≤ c.mouseDoubleClickInterval ∧
        d.timer.elapsed (QTime.currentTime c.clock2) < c.mouseDoubleClickInterval) →
      (toggleShiftDoubleTap c d).1.capsLock = false ∧
      (toggleShiftDoubleTap c d).1.shift = (!d.shift)) := by
  obtain ⟨sec, ace, tse, sh, shc, cl, rwv, loc, tm⟩ := d
  simp only at hcaps
  subst hcaps
  unfold toggleShiftDoubleTap toggleShiftTimer
  by_cases hn : tm.isNull = true
  · cases sh <;> cases shc <;>
      simp [hn, Outcome.andThen, setShift_fst, setCapsLock_fst]
  · by_cases h1 : tm.elapsed (QTime.currentTime c.clock1) > c.mouseDoubleClickInterval
    · have h1n : ¬ tm.elapsed (QTime.currentTime c.clock1) ≤ c.mouseDoubleClickInterval := by
        omega
      cases sh <;> cases shc <;>
        simp [hn, h1, h1n, Outcome.andThen, setShift_fst, setCapsLock_fst]
    · have h1p : tm.elapsed (QTime.currentTime c.clock1) ≤ c.mouseDoubleClickInterval := by
        omega
      by_cases h2 : tm.elapsed (QTime.currentTime c.clock2) < c.mouseDoubleClickInterval
      · cases sh <;> cases shc <;>
          simp [hn, h1, h1p, h2, Outcome.andThen, setShift_fst, setCapsLock_fst]
      · cases sh <;> cases shc <;>
          simp [hn, h1, h1p, h2, Outcome.andThen, setShift_fst, setCapsLock_fst]

theorem resetLocals_congr (c : Collaborators) (d1 d2 : ShiftHandlerPrivate)
    (hloc : d1.locale = d2.locale) : resetLocals c d1 = resetLocals c d2 := by
  unfold resetLocals
  rw [hloc]

/-- The slot `reset` writes the two policy flags, `shift`, `shiftChanged`
and `capsLock` only. -/
theorem reset_frame (c : Collaborators) (d : ShiftHandlerPrivate) :
    (reset c d).1.locale = d.locale ∧
    (reset c d).1.sentenceEndingCharacters = d.sentenceEndingCharacters ∧
    (reset c d).1.resetWhenVisible = d.resetWhenVisible ∧
    (reset c d).1.timer = d.timer := by
  by_cases hitem : c.inputItem = true
  · rw [reset_fst c d hitem]
    split_ifs
    · simp [setShift_fst]
    · simp [(autoCapitalize_frame c _).2.2.2]
  · simp [reset, hitem]

/-- The value of `shift` after `reset` on an attached input item. -/
theorem reset_shift (c : Collaborators) (d : ShiftHandlerPrivate) (hitem : c.inputItem = true) :
    (reset c d).1.shift =
      if (resetLocals c d).1 = true then true
      else autoCapitalizeTarget (resetLocals c d).2.1 d.sentenceEndingCharacters
        c.preeditText c.inputMethodHints c.cursorPosition
        (truncate c.surroundingText c.cursorPosition) := by
  rw [reset_fst c d hitem]
  by_cases hp : (resetLocals c d).1 = true
  · simp [hp, setShift_fst]
  · have hp' : (resetLocals c d).1 = false := by simpa using hp
    simp [hp', autoCapitalize_eq, setShift_fst]

/-- A handler that already holds what `reset` would write is left alone by
`reset`, without any signal. -/
theorem reset_fixed (c : Collaborators) (d : ShiftHandlerPrivate)
    (ht : d.toggleShiftEnabled = (resetLocals c d).2.2)
    (ha : d.autoCapitalizationEnabled = (resetLocals c d).2.1)
    (hc : d.capsLock = (resetLocals c d).1)
    (hs : d.shift = if (resetLocals c d).1 = true then true
      else autoCapitalizeTarget (resetLocals c d).2.1 d.sentenceEndingCharacters
        c.preeditText c.inputMethodHints c.cursorPosition
        (truncate c.surroundingText c.cursorPosition)) :
    reset c d = (d, []) := by
  by_cases hitem : c.inputItem = true
  · simp only [reset, hitem, if_true, Outcome.andThen, autoCapitalize_eq]
    revert ht ha hc hs
    generalize resetLocals c d = L
    obtain ⟨p, a, t⟩ := L
    obtain ⟨sec, ace, tse, sh, shc, cl, rwv, loc, tm⟩ := d
    dsimp only
    intro ht ha hc hs
    subst ht ha hc
    cases cl
    · simp only [Bool.false_eq_true, if_false] at hs
      simp [setShift, setCapsLock, setToggleShiftEnabled, setAutoCapitalizationEnabled, ← hs]
    · simp only [if_true] at hs
      subst hs
      simp [setShift, setCapsLock, setToggleShiftEnabled, setAutoCapitalizationEnabled]
  · simp [reset, hitem]

/-! ## The claims -/

/-- C1. Double tap locks: when toggling is enabled and both calls of
`toggleShift` take the double-tap branch, and shift is on after the first
call, and every elapsed time read during the second call is strictly below
the double-click interval, then caps lock and shift are both on after the
second call. -/
theorem toggleShift_double_tap_locks (c1 c2 : Collaborators) (d : ShiftHandlerPrivate)
    (h1 : doubleTapBranch c1 d)
    (h2 : doubleTapBranch c2 (toggleShift c1 d).1)
    (hshift : (toggleShift c1 d).1.shift = true)
    (he1 : (toggleShift c1 d).1.timer.elapsed (QTime.currentTime c2.clock1)
      < c2.mouseDoubleClickInterval)
    (he2 : (toggleShift c1 d).1.timer.elapsed (QTime.currentTime c2.clock2)
      < c2.mouseDoubleClickInterval) :
    (toggleShift c2 (toggleShift c1 d).1).1.capsLock = true ∧
    (toggleShift c2 (toggleShift c1 d).1).1.shift = true := by
  rw [toggleShift_of_doubleTapBranch c2 _ h2]
  rw [toggleShift_of_doubleTapBranch c1 d h1] at hshift he1 he2 ⊢
  exact toggleShiftDoubleTap_fast c2 _ hshift (toggleShiftDoubleTap_post c1 d).2.1
    (toggleShiftDoubleTap_post c1 d).1 he1 he2

/-- Witness of C1: lower case, no caps lock, no timestamp; a tap at 1000 ms
and a second tap at 1100 ms, with an interval of 400 ms. -/
theorem toggleShift_double_tap_locks_witness :
    doubleTapBranch (latinField 1000) readyHandler ∧
    (toggleShift (latinField 1000) readyHandler).1.shift = true ∧
    (toggleShift (latinField 1100) (toggleShift (latinField 1000) readyHandler).1).1.capsLock
      = true ∧
    (toggleShift (latinField 1100) (toggleShift (latinField 1000) readyHandler).1).1.shift
      = true :=
  ⟨by decide, by decide,
    toggleShift_double_tap_locks (latinField 1000) (latinField 1100) readyHandler
      (by decide) (by decide) (by decide) (by decide) (by decide)⟩

/-- C2. Slow taps never lock: when toggling is enabled and both calls of
`toggleShift` take the double-tap branch, and each call finds either no
timestamp or an elapsed time strictly above the double-click interval, then
each call negates shift and leaves caps lock off. -/
theorem toggleShift_slow_taps_never_lock (c1 c2 : Collaborators) (d : ShiftHandlerPrivate)
    (h1 : doubleTapBranch c1 d)
    (h2 : doubleTapBranch c2 (toggleShift c1 d).1)
    (hs1 : d.timer.isNull = true ∨
      d.timer.elapsed (QTime.currentTime c1.clock1) > c1.mouseDoubleClickInterval)
    (hs2 : (toggleShift c1 d).1.timer.isNull = true ∨
      (toggleShift c1 d).1.timer.elapsed (QTime.currentTime c2.clock1)
        > c2.mouseDoubleClickInterval) :
    (toggleShift c1 d).1.shift = (!d.shift) ∧
    (toggleShift c1 d).1.capsLock = false ∧
    (toggleShift c2 (toggleShift c1 d).1).1.shift = (!(toggleShift c1 d).1.shift) ∧
    (toggleShift c2 (toggleShift c1 d).1).1.capsLock = false := by
  rw [toggleShift_of_doubleTapBranch c2 _ h2]
  rw [toggleShift_of_doubleTapBranch c1 d h1] at hs2 ⊢
  exact ⟨(toggleShiftDoubleTap_slow c1 d hs1).1, (toggleShiftDoubleTap_slow c1 d hs1).2.1,
    (toggleShiftDoubleTap_slow c2 _ hs2).1, (toggleShiftDoubleTap_slow c2 _ hs2).2.1⟩

/-- Witness of C2: a tap at 1000 ms with no timestamp and a second tap at
2000 ms, 1000 ms later, with an interval of 400 ms. -/
theorem toggleShift_slow_taps_never_lock_witness :
    doubleTapBranch (latinField 1000) readyHandler ∧
    (toggleShift (latinField 1000) readyHandler).1.timer.elapsed
        (QTime.currentTime (latinField 2000).clock1) = 1000 ∧
    (toggleShift (latinField 1000) readyHandler).1.shift = (!readyHandler.shift) ∧
    (toggleShift (latinField 1000) readyHandler).1.capsLock = false ∧
    (toggleShift (latinField 2000) (toggleShift (latinField 1000) readyHandler).1).1.shift
      = (!(toggleShift (latinField 1000) readyHandler).1.shift) ∧
    (toggleShift (latinField 2000) (toggleShift (latinField 1000) readyHandler).1).1.capsLock
      = false :=
  ⟨by decide, by decide,
    toggleShift_slow_taps_never_lock (latinField 1000) (latinField 2000) readyHandler
      (by decide) (by decide) (by decide) (by decide)⟩

/-- C3. The auto-capitalization rule: with caps lock off, after
`autoCapitalize` shift is off when auto-capitalization is disabled or the
pre-edit text is non-empty; otherwise shift is the negation of the
lower-case preference when the cursor position is 0, or when the surrounding
text truncated to the cursor position and trimmed is empty or ends in one of
the sentence-ending characters, and shift is off in every other case. In
particular a cursor at 0 without the lower-case hint gives shift on for any
surrounding text. -/
theorem autoCapitalize_rule (c : Collaborators) (d : ShiftHandlerPrivate)
    (hcaps : d.capsLock = false) :
    ((d.autoCapitalizationEnabled = false ∨ c.preeditText ≠ []) →
      (autoCapitalize c d).1.shift = false) ∧
    (d.autoCapitalizationEnabled = true → c.preeditText = [] →
      ((c.cursorPosition = 0 ∨
          trimmed (truncate c.surroundingText c.cursorPosition) = [] ∨
          ∃ ch ∈ d.sentenceEndingCharacters,
            (trimmed (truncate c.surroundingText c.cursorPosition)).getLast? = some ch) →
        (autoCapitalize c d).1.shift = (!testFlags c.inputMethodHints ImhPreferLowercase)) ∧
      (¬ (c.cursorPosition = 0 ∨
          trimmed (truncate c.surroundingText c.cursorPosition) = [] ∨
          ∃ ch ∈ d.sentenceEndingCharacters,
            (trimmed (truncate c.surroundingText c.cursorPosition)).getLast? = some ch) →
        (autoCapitalize c d).1.shift = false)) ∧
    (d.autoCapitalizationEnabled = true → c.preeditText = [] → c.cursorPosition = 0 →
      testFlags c.inputMethodHints ImhPreferLowercase = false →
      (autoCapitalize c d).1.shift = true) := by
  have hkey : d.autoCapitalizationEnabled = true → c.preeditText = [] →
      (autoCapitalize c d).1.shift =
        if c.cursorPosition = 0 ∨
          trimmed (truncate c.surroundingText c.cursorPosition) = [] ∨
          ∃ ch ∈ d.sentenceEndingCharacters,
            (trimmed (truncate c.surroundingText c.cursorPosition)).getLast? = some ch
        then (!testFlags c.inputMethodHints ImhPreferLowercase) else false := by
    intro hen hpre
    unfold autoCapitalize
    simp only [hcaps, hen, hpre, Bool.false_eq_true, if_false, Bool.not_true, List.isEmpty_nil,
      or_self, lastChar_test_iff, List.length_eq_zero]
    by_cases h0 : c.cursorPosition = 0
    · simp [h0, setShift_fst]
    · by_cases h1 : trimmed (truncate c.surroundingText c.cursorPosition) = []
      · simp [h0, h1, setShift_fst]
      · by_cases h2 : ∃ ch ∈ d.sentenceEndingCharacters,
            (trimmed (truncate c.surroundingText c.cursorPosition)).getLast? = some ch
        · simp only [h0, h1, h2, if_true, if_false, or_true, setShift_fst]
        · simp only [h0, h1, h2, if_false, or_self, setShift_fst]
  refine ⟨?_, ?_, ?_⟩
  · intro h
    unfold autoCapitalize
    rcases h with h | h
    · simp [hcaps, h, setShift_fst]
    · have : c.preeditText.isEmpty = false := by
        cases hp : c.preeditText with
        | nil => exact absurd hp h
        | cons a l => rfl
      simp [hcaps, this, setShift_fst]
  · intro hen hpre
    rw [hkey hen hpre]
    constructor
    · intro h
      rw [if_pos h]
    · intro h
      rw [if_neg h]
  · intro hen hpre h0 hl
    rw [hkey hen hpre, if_pos (Or.inl h0), hl]
    rfl

/-- Witness of C3: the text "Hello. " with the cursor at 7 gives shift on;
the text "Hello " with the cursor at 7 gives shift off, here from a handler
whose shift was on. -/
theorem autoCapitalize_rule_witness :
    readyHandler.capsLock = false ∧
    (autoCapitalize (textField [72, 101, 108, 108, 111, 46, 32] 7) readyHandler).1.shift
      = true ∧
    (autoCapitalize (textField [72, 101, 108, 108, 111, 32] 7)
      { readyHandler with shift := true }).1.shift = false :=
  ⟨by decide,
    ((autoCapitalize_rule (textField [72, 101, 108, 108, 111, 46, 32] 7) readyHandler
      (by decide)).2.1 (by decide) (by decide)).1
      (Or.inr (Or.inr ⟨46, by decide, by decide⟩)),
    ((autoCapitalize_rule (textField [72, 101, 108, 108, 111, 32] 7)
      { readyHandler with shift := true } (by decide)).2.1 (by decide) (by decide)).2
      (by decide)⟩

/-- C4. Reset for a manual-shift language: with an input item attached and
the stored locale's language in `manualShiftLanguageFilter`, whatever the
prior state, the hints and the input mode, `reset` ends with toggling
enabled, auto-capitalization disabled, caps lock off and shift off. -/
theorem reset_manual_shift_language (c : Collaborators) (d : ShiftHandlerPrivate)
    (hitem : c.inputItem = true) (hlang : d.locale ∈ manualShiftLanguageFilter) :
    (reset c d).1.toggleShiftEnabled = true ∧
    (reset c d).1.autoCapitalizationEnabled = false ∧
    (reset c d).1.capsLock = false ∧
    (reset c d).1.shift = false := by
  have hL : resetLocals c d = (false, false, true) := by
    simp [resetLocals, hlang]
  obtain ⟨hc, ha, ht, _, hs⟩ := reset_fields c d hitem
  rw [hL] at hc ha ht hs
  exact ⟨ht, ha, hc, hs rfl rfl⟩

/-- Witness of C4: an Arabic handler that was upper case and locked, reset
over a field that asks for upper case only. -/
theorem reset_manual_shift_language_witness :
    (reset { latinField 0 with inputMethodHints := ImhUppercaseOnly }
      { arabicHandler with shift := true, capsLock := true }).1.toggleShiftEnabled = true ∧
    (reset { latinField 0 with inputMethodHints := ImhUppercaseOnly }
      { arabicHandler with shift := true, capsLock := true }).1.autoCapitalizationEnabled
        = false ∧
    (reset { latinField 0 with inputMethodHints := ImhUppercaseOnly }
      { arabicHandler with shift := true, capsLock := true }).1.capsLock = false ∧
    (reset { latinField 0 with inputMethodHints := ImhUppercaseOnly }
      { arabicHandler with shift := true, capsLock := true }).1.shift = false :=
  reset_manual_shift_language { latinField 0 with inputMethodHints := ImhUppercaseOnly }
    { arabicHandler with shift := true, capsLock := true } (by decide) (by decide)

/-- C5, as stated, fails: with the stored locale Arabic, an input item
attached, the input mode Katakana and no hint set, `reset` ends with caps
lock off, shift off and toggling enabled. -/
theorem reset_all_caps_every_locale_counterexample :
    katakanaField.inputItem = true ∧
    katakanaField.inputMode ∈ allCapsInputModeFilter ∧
    katakanaField.inputMethodHints = 0 ∧
    (reset katakanaField arabicHandler).1.capsLock = false ∧
    (reset katakanaField arabicHandler).1.shift = false ∧
    (reset katakanaField arabicHandler).1.toggleShiftEnabled = true := by
  decide

/-- C5, amended. Reset for an all-caps input mode: with an input item
attached, the input mode in `allCapsInputModeFilter`, no hint set and the
stored locale's language outside `manualShiftLanguageFilter`, whatever the
prior state, `reset` ends with caps lock on, shift on and toggling
disabled. -/
theorem reset_all_caps_input_mode (c : Collaborators) (d : ShiftHandlerPrivate)
    (hitem : c.inputItem = true) (hmode : c.inputMode ∈ allCapsInputModeFilter)
    (_hhints : c.inputMethodHints = 0) (hlang : d.locale ∉ manualShiftLanguageFilter) :
    (reset c d).1.capsLock = true ∧
    (reset c d).1.shift = true ∧
    (reset c d).1.toggleShiftEnabled = false := by
  have hmc : c.inputMode ∉ manualCapsInputModeFilter := by
    simp only [allCapsInputModeFilter, List.mem_cons, List.mem_singleton, List.not_mem_nil,
      or_false] at hmode
    rcases hmode with h | h <;> rw [h] <;> decide
  have hL : resetLocals c d = (true, false, false) := by
    simp [resetLocals, hlang, hmc, hmode]
  obtain ⟨hc, _, ht, hs, _⟩ := reset_fields c d hitem
  rw [hL] at hc ht hs
  exact ⟨hc, hs rfl, ht⟩

/-- Witness of the amended C5: Katakana over a handler whose locale is
outside the filter. -/
theorem reset_all_caps_input_mode_witness :
    (reset katakanaField readyHandler).1.capsLock = true ∧
    (reset katakanaField readyHandler).1.shift = true ∧
    (reset katakanaField readyHandler).1.toggleShiftEnabled = false :=
  reset_all_caps_input_mode katakanaField readyHandler (by decide) (by decide) (by decide)
    (by decide)

/-- C6. Reset policy from the hints when no filter matches: with an input
item attached, the stored locale's language outside
`manualShiftLanguageFilter` and the input mode in neither
`manualCapsInputModeFilter` nor `allCapsInputModeFilter`, after `reset`
(i) auto-capitalization is enabled exactly when none of the eight hints is
set and the input mode is outside `noAutoUppercaseInputModeFilter`,
(ii) toggling is enabled exactly when neither case-only hint is set,
(iii) caps lock is on exactly when `ImhPreferUppercase` or
`ImhUppercaseOnly` is set, and then shift is on too. -/
theorem reset_policy_from_hints (c : Collaborators) (d : ShiftHandlerPrivate)
    (hitem : c.inputItem = true) (hlang : d.locale ∉ manualShiftLanguageFilter)
    (hmc : c.inputMode ∉ manualCapsInputModeFilter)
    (hac : c.inputMode ∉ allCapsInputModeFilter) :
    ((reset c d).1.autoCapitalizationEnabled = true ↔
      (testFlags c.inputMethodHints ImhNoAutoUppercase = false ∧
        testFlags c.inputMethodHints ImhUppercaseOnly = false ∧
        testFlags c.inputMethodHints ImhLowercaseOnly = false ∧
        testFlags c.inputMethodHints ImhEmailCharactersOnly = false ∧
        testFlags c.inputMethodHints ImhUrlCharactersOnly = false ∧
        testFlags c.inputMethodHints ImhDialableCharactersOnly = false ∧
        testFlags c.inputMethodHints ImhFormattedNumbersOnly = false ∧
        testFlags c.inputMethodHints ImhDigitsOnly = false ∧
        c.inputMode ∉ noAutoUppercaseInputModeFilter)) ∧
    ((reset c d).1.toggleShiftEnabled = true ↔
      (testFlags c.inputMethodHints ImhUppercaseOnly = false ∧
        testFlags c.inputMethodHints ImhLowercaseOnly = false)) ∧
    ((reset c d).1.capsLock = true ↔
      (testFlags c.inputMethodHints ImhPreferUppercase = true ∨
        testFlags c.inputMethodHints ImhUppercaseOnly = true)) ∧
    ((reset c d).1.capsLock = true → (reset c d).1.shift = true) := by
  obtain ⟨hc, ha, ht, hs, _⟩ := reset_fields c d hitem
  have hL : resetLocals c d =
      (testFlags c.inputMethodHints (ImhPreferUppercase ||| ImhUppercaseOnly),
        !testFlags c.inputMethodHints (ImhNoAutoUppercase |||
          ImhUppercaseOnly ||| ImhLowercaseOnly ||| ImhEmailCharactersOnly |||
          ImhUrlCharactersOnly ||| ImhDialableCharactersOnly ||| ImhFormattedNumbersOnly |||
          ImhDigitsOnly) && !decide (c.inputMode ∈ noAutoUppercaseInputModeFilter),
        !testFlags c.inputMethodHints (ImhUppercaseOnly ||| ImhLowercaseOnly)) := by
    simp [resetLocals, hlang, hmc, hac]
  rw [hL] at hc ha ht hs
  simp only [testFlags_or] at hc ha ht hs
  refine ⟨?_, ?_, ?_, ?_⟩
  · rw [ha]
    simp only [Bool.and_eq_true, Bool.not_eq_true', Bool.or_eq_false_iff,
      decide_eq_false_iff_not]
    tauto
  · rw [ht]
    simp only [Bool.not_eq_true', Bool.or_eq_false_iff]
  · rw [hc]
    simp only [Bool.or_eq_true]
  · intro h
    exact hs (hc ▸ h)

/-- Witness of C6: a Latin field that asks for upper case only. -/
theorem reset_policy_from_hints_witness :
    (reset { latinField 0 with inputMethodHints := ImhUppercaseOnly }
        readyHandler).1.autoCapitalizationEnabled = false ∧
    (reset { latinField 0 with inputMethodHints := ImhUppercaseOnly }
        readyHandler).1.toggleShiftEnabled = false ∧
    (reset { latinField 0 with inputMethodHints := ImhUppercaseOnly }
        readyHandler).1.capsLock = true ∧
    (reset { latinField 0 with inputMethodHints := ImhUppercaseOnly }
        readyHandler).1.shift = true := by
  have h := reset_policy_from_hints { latinField 0 with inputMethodHints := ImhUppercaseOnly }
    readyHandler (by decide) (by decide) (by decide) (by decide)
  have hcaps := h.2.2.1.mpr (Or.inr (by decide))
  refine ⟨?_, ?_, hcaps, h.2.2.2 hcaps⟩
  · cases hv : (reset { latinField 0 with inputMethodHints := ImhUppercaseOnly }
        readyHandler).1.autoCapitalizationEnabled
    · rfl
    · exact absurd (h.1.mp hv).2.1 (by decide)
  · cases hv : (reset { latinField 0 with inputMethodHints := ImhUppercaseOnly }
        readyHandler).1.toggleShiftEnabled
    · rfl
    · exact absurd (h.2.1.mp hv).1 (by decide)

/-- C7. Mutator notifications are exact: `setShift v` emits `shiftChanged`
exactly when `v` differs from the current shift and `uppercaseChanged`
exactly when `uppercase` differs after the call; `setCapsLock v` emits
`capsLockChanged` exactly when `v` differs from the current caps lock and
`uppercaseChanged` exactly when `uppercase` differs after the call; neither
emits anything else nor any signal twice; and a call with the current value
emits nothing and changes no field. -/
theorem mutator_notifications_exact (d : ShiftHandlerPrivate) (v : Bool) :
    (Signal.shiftChanged ∈ (setShift d v).2 ↔ v ≠ d.shift) ∧
    (Signal.uppercaseChanged ∈ (setShift d v).2 ↔ uppercase (setShift d v).1 ≠ uppercase d) ∧
    (Signal.capsLockChanged ∈ (setCapsLock d v).2 ↔ v ≠ d.capsLock) ∧
    (Signal.uppercaseChanged ∈ (setCapsLock d v).2 ↔
      uppercase (setCapsLock d v).1 ≠ uppercase d) ∧
    (setShift d v).2 =
      (if v ≠ d.shift then [Signal.shiftChanged] else []) ++
        (if uppercase (setShift d v).1 ≠ uppercase d then [Signal.uppercaseChanged] else []) ∧
    (setCapsLock d v).2 =
      (if v ≠ d.capsLock then [Signal.capsLockChanged] else []) ++
        (if uppercase (setCapsLock d v).1 ≠ uppercase d then [Signal.uppercaseChanged]
          else []) ∧
    (v = d.shift → setShift d v = (d, [])) ∧
    (v = d.capsLock → setCapsLock d v = (d, [])) := by
  obtain ⟨sec, ace, tse, sh, shc, cl, rwv, loc, tm⟩ := d
  cases sh <;> cases cl <;> cases v <;> simp [setShift, setCapsLock, uppercase]

/-- C8. Visibility deferral: one or more `restart` calls while the keyboard
is not visible set `resetWhenVisible` and change nothing else and emit
nothing; a visibility notification with the keyboard visible then gives the
state and the signals of a single `reset` from that state under the same
collaborator values, with `resetWhenVisible` cleared; a visibility
notification with `resetWhenVisible` off, or with the keyboard still hidden,
changes nothing and emits nothing. -/
theorem visibility_deferral (cs : List Collaborators) (c : Collaborators)
    (d : ShiftHandlerPrivate) (hne : cs ≠ [])
    (hhidden : ∀ x ∈ cs, x.app = false ∨ x.isVisible = false) :
    restarts cs d = ({ d with resetWhenVisible := true }, []) ∧
    (c.app = true → c.isVisible = true →
      inputMethodVisibleChanged c (restarts cs d).1 =
        ({ (reset c (restarts cs d).1).1 with resetWhenVisible := false },
          (reset c (restarts cs d).1).2)) ∧
    (d.resetWhenVisible = false → inputMethodVisibleChanged c d = (d, [])) ∧
    (c.app = false ∨ c.isVisible = false → inputMethodVisibleChanged c d = (d, [])) := by
  have hrs : restarts cs d = ({ d with resetWhenVisible := true }, []) := by
    unfold restarts
    rw [restarts_hidden_aux cs hhidden, if_neg hne]
  refine ⟨hrs, ?_, ?_, ?_⟩
  · intro happ hvis
    rw [hrs]
    simp only [inputMethodVisibleChanged, happ, hvis, Bool.not_true, Bool.false_eq_true,
      if_false, and_self, if_true]
    exact reset_after_deferral c d
  · intro h
    simp [inputMethodVisibleChanged, h]
  · intro h
    unfold inputMethodVisibleChanged
    rcases h with h | h <;> simp [h]

/-- Witness of C8: three restarts over a hidden keyboard, then the keyboard
shows over a Latin text field: the deferred reset turns shift on. -/
theorem visibility_deferral_witness :
    restarts [hidden (latinField 0), hidden katakanaField, hidden (latinField 5)] readyHandler
      = ({ readyHandler with resetWhenVisible := true }, []) ∧
    inputMethodVisibleChanged (latinField 9)
        (restarts [hidden (latinField 0), hidden katakanaField, hidden (latinField 5)]
          readyHandler).1
      = ({ readyHandler with shift := true, shiftChanged := true },
          [Signal.shiftChanged, Signal.uppercaseChanged]) := by
  have h := visibility_deferral
    [hidden (latinField 0), hidden katakanaField, hidden (latinField 5)] (latinField 9)
    readyHandler (by decide) (by decide)
  refine ⟨h.1, ?_⟩
  rw [h.2.1 (by decide) (by decide), h.1]
  decide

/-- C9. Manual-language toggle: with toggling enabled and the stored locale's
language in `manualShiftLanguageFilter`, whatever the hints, the input mode,
the timestamp and the clock, `toggleShift` ends with caps lock off and shift
negated, and leaves the timestamp as it was. -/
theorem toggleShift_manual_language (c : Collaborators) (d : ShiftHandlerPrivate)
    (hen : d.toggleShiftEnabled = true) (hlang : d.locale ∈ manualShiftLanguageFilter) :
    (toggleShift c d).1.capsLock = false ∧
    (toggleShift c d).1.shift = (!d.shift) ∧
    (toggleShift c d).1.timer = d.timer := by
  simp [toggleShift, hen, hlang, Outcome.andThen, setShift_fst, setCapsLock_fst]

/-- Witness of C9: an Arabic handler that is upper case and locked, tapped
inside the double-click interval of its timestamp. -/
theorem toggleShift_manual_language_witness :
    (toggleShift (latinField 1100)
      { arabicHandler with shift := true, capsLock := true, timer := ⟨1000⟩ }).1.capsLock
        = false ∧
    (toggleShift (latinField 1100)
      { arabicHandler with shift := true, capsLock := true, timer := ⟨1000⟩ }).1.shift
        = (!true) ∧
    (toggleShift (latinField 1100)
      { arabicHandler with shift := true, capsLock := true, timer := ⟨1000⟩ }).1.timer
        = ⟨1000⟩ :=
  toggleShift_manual_language (latinField 1100)
    { arabicHandler with shift := true, capsLock := true, timer := ⟨1000⟩ }
    (by decide) (by decide)

/-- C10. Binary-switch toggle: with toggling enabled, the stored locale's
language outside `manualShiftLanguageFilter`, and either the hint
`ImhNoAutoUppercase` set or the input mode in `manualCapsInputModeFilter`,
whatever shift, the timestamp and the clock are, `toggleShift` ends with caps
lock negated and shift equal to the new caps lock, and leaves the timestamp
as it was. -/
theorem toggleShift_binary_switch (c : Collaborators) (d : ShiftHandlerPrivate)
    (hen : d.toggleShiftEnabled = true) (hlang : d.locale ∉ manualShiftLanguageFilter)
    (hsw : testFlags c.inputMethodHints ImhNoAutoUppercase = true ∨
      c.inputMode ∈ manualCapsInputModeFilter) :
    (toggleShift c d).1.capsLock = (!d.capsLock) ∧
    (toggleShift c d).1.shift = (toggleShift c d).1.capsLock ∧
    (toggleShift c d).1.timer = d.timer := by
  simp [toggleShift, hen, hlang, hsw, Outcome.andThen, setShift_fst, setCapsLock_fst]

/-- Witness of C10: the hint `ImhNoAutoUppercase`, a handler in upper case
without caps lock, tapped inside the double-click interval of its
timestamp. -/
theorem toggleShift_binary_switch_witness :
    (toggleShift { noAutoUppercaseField with clock1 := 1100, clock2 := 1100 }
      { readyHandler with shift := true, timer := ⟨1000⟩ }).1.capsLock = (!false) ∧
    (toggleShift { noAutoUppercaseField with clock1 := 1100, clock2 := 1100 }
      { readyHandler with shift := true, timer := ⟨1000⟩ }).1.shift =
      (toggleShift { noAutoUppercaseField with clock1 := 1100, clock2 := 1100 }
        { readyHandler with shift := true, timer := ⟨1000⟩ }).1.capsLock ∧
    (toggleShift { noAutoUppercaseField with clock1 := 1100, clock2 := 1100 }
      { readyHandler with shift := true, timer := ⟨1000⟩ }).1.timer = ⟨1000⟩ :=
  toggleShift_binary_switch { noAutoUppercaseField with clock1 := 1100, clock2 := 1100 }
    { readyHandler with shift := true, timer := ⟨1000⟩ } (by decide) (by decide)
    (Or.inl (by decide))

/-- C11. Clearing the timer discards the double-tap window: when toggling is
enabled and `toggleShift` takes the double-tap branch,
`clearToggleShiftTimer` changes nothing but the timestamp, which becomes
null, and emits nothing; a `toggleShift` that follows, at any clock reading,
ends with caps lock off and with shift negated. -/
theorem clearToggleShiftTimer_discards_window (c : Collaborators) (d : ShiftHandlerPrivate)
    (h : doubleTapBranch c d) :
    clearToggleShiftTimer d = ({ d with timer := QTime.null }, []) ∧
    (toggleShift c (clearToggleShiftTimer d).1).1.capsLock = false ∧
    (toggleShift c (clearToggleShiftTimer d).1).1.shift = (!d.shift) := by
  have hb : doubleTapBranch c (clearToggleShiftTimer d).1 := h
  have hnull : (clearToggleShiftTimer d).1.timer.isNull = true := rfl
  refine ⟨rfl, ?_, ?_⟩
  · rw [toggleShift_of_doubleTapBranch c _ hb]
    exact (toggleShiftDoubleTap_slow c _ (Or.inl hnull)).2.1
  · rw [toggleShift_of_doubleTapBranch c _ hb]
    exact (toggleShiftDoubleTap_slow c _ (Or.inl hnull)).1

/-- Witness of C11: after a tap at 1000 ms the timer is cleared, and a tap
100 ms later only turns shift off. -/
theorem clearToggleShiftTimer_discards_window_witness :
    doubleTapBranch (latinField 1100) tappedHandler ∧
    clearToggleShiftTimer tappedHandler = ({ tappedHandler with timer := QTime.null }, []) ∧
    (toggleShift (latinField 1100) (clearToggleShiftTimer tappedHandler).1).1.capsLock
      = false ∧
    (toggleShift (latinField 1100) (clearToggleShiftTimer tappedHandler).1).1.shift
      = (!tappedHandler.shift) :=
  ⟨by decide, clearToggleShiftTimer_discards_window (latinField 1100) tappedHandler (by decide)⟩

/-- C12, as stated, fails: runs of `autoCapitalize` that agree on the pre-edit
text, the surrounding text, the cursor position, the hints, caps lock and
the sentence-ending characters end with different shift values, once when
only `autoCapitalizationEnabled` differs and once when, under caps lock,
only the previous shift differs. -/
theorem autoCapitalize_no_memory_counterexample :
    readyHandler.capsLock = false ∧
    (autoCapitalize (latinField 0) readyHandler).1.shift = true ∧
    (autoCapitalize (latinField 0)
      { readyHandler with autoCapitalizationEnabled := false }).1.shift = false ∧
    (autoCapitalize (latinField 0)
      { readyHandler with capsLock := true, shift := true }).1.shift = true ∧
    (autoCapitalize (latinField 0)
      { readyHandler with capsLock := true, shift := false }).1.shift = false := by
  decide

/-- C12, amended. The value of shift after `autoCapitalize` is a function of
the pre-edit text, the surrounding text before the cursor, the cursor
position, the hints, caps lock, the sentence-ending characters and
`autoCapitalizationEnabled`, and of the previous shift when caps lock is on:
two runs that agree on these end with the same shift, whatever
`toggleShiftEnabled`, the shift-changed flag, the timestamp and, with caps
lock off, the previous shift are in each run. -/
theorem autoCapitalize_shift_determined (c1 c2 : Collaborators) (d1 d2 : ShiftHandlerPrivate)
    (hpre : c1.preeditText = c2.preeditText)
    (htext : truncate c1.surroundingText c1.cursorPosition
      = truncate c2.surroundingText c2.cursorPosition)
    (hcur : c1.cursorPosition = c2.cursorPosition)
    (hhints : c1.inputMethodHints = c2.inputMethodHints)
    (hcaps : d1.capsLock = d2.capsLock)
    (hsec : d1.sentenceEndingCharacters = d2.sentenceEndingCharacters)
    (hen : d1.autoCapitalizationEnabled = d2.autoCapitalizationEnabled)
    (hprev : d1.capsLock = true → d1.shift = d2.shift) :
    (autoCapitalize c1 d1).1.shift = (autoCapitalize c2 d2).1.shift := by
  rw [autoCapitalize_eq, autoCapitalize_eq, hpre, htext, hcur, hhints, ← hcaps, hsec, hen]
  by_cases hc : d1.capsLock = true
  · simp only [hc, if_true]
    exact hprev hc
  · simp only [hc, Bool.false_eq_true, if_false, setShift_fst]

/-- Witness of the amended C12: the text "Hello. Xy" and the text "Hello. "
agree up to the cursor at 7; the two handlers differ in the previous shift,
in `toggleShiftEnabled`, in the shift-changed flag and in the timestamp. -/
theorem autoCapitalize_shift_determined_witness :
    (autoCapitalize (textField [72, 101, 108, 108, 111, 46, 32, 88, 121] 7) readyHandler).1.shift
      = (autoCapitalize (textField [72, 101, 108, 108, 111, 46, 32] 7)
          { readyHandler with shift := true, toggleShiftEnabled := false,
                              shiftChanged := true, timer := ⟨5⟩ }).1.shift :=
  autoCapitalize_shift_determined (textField [72, 101, 108, 108, 111, 46, 32, 88, 121] 7)
    (textField [72, 101, 108, 108, 111, 46, 32] 7) readyHandler
    { readyHandler with shift := true, toggleShiftEnabled := false,
                        shiftChanged := true, timer := ⟨5⟩ }
    (by decide) (by decide) (by decide) (by decide) (by decide) (by decide) (by decide)
    (by decide)

/-- C13. Caps lock wins over auto-capitalization: with caps lock on, whatever
the pre-edit text, the surrounding text, the cursor position and the hints,
`autoCapitalize` leaves every field as it was and emits nothing. -/
theorem autoCapitalize_capsLock_noop (c : Collaborators) (d : ShiftHandlerPrivate)
    (hcaps : d.capsLock = true) : autoCapitalize c d = (d, []) := by
  unfold autoCapitalize
  rw [if_pos hcaps]

/-- Witness of C13: a locked handler over the text "Hello " with the cursor
at 7, where auto-capitalization would turn shift off. -/
theorem autoCapitalize_capsLock_noop_witness :
    autoCapitalize (textField [72, 101, 108, 108, 111, 32] 7) lockedHandler
      = (lockedHandler, []) :=
  autoCapitalize_capsLock_noop (textField [72, 101, 108, 108, 111, 32] 7) lockedHandler
    (by decide)

/-- C14. A disabled toggle is a silent no-op: with `toggleShiftEnabled` off,
whatever the locale, the hints, the input mode and the clock, `toggleShift`
leaves every field as it was and emits nothing; the freshly constructed
handler is such a state. -/
theorem toggleShift_disabled_noop (c : Collaborators) (d : ShiftHandlerPrivate)
    (hdis : d.toggleShiftEnabled = false) :
    toggleShift c d = (d, []) ∧
    ∀ systemLocale : Language,
      (ShiftHandlerPrivate.constructed systemLocale).toggleShiftEnabled = false ∧
      toggleShift c (ShiftHandlerPrivate.constructed systemLocale)
        = (ShiftHandlerPrivate.constructed systemLocale, []) := by
  refine ⟨by simp [toggleShift, hdis], fun loc => ⟨rfl, ?_⟩⟩
  simp [toggleShift, ShiftHandlerPrivate.constructed]

/-- Witness of C14: a tapped handler with toggling switched off, tapped
again inside the double-click interval. -/
theorem toggleShift_disabled_noop_witness :
    toggleShift (latinField 1100) { tappedHandler with toggleShiftEnabled := false }
      = ({ tappedHandler with toggleShiftEnabled := false }, []) :=
  (toggleShift_disabled_noop (latinField 1100)
    { tappedHandler with toggleShiftEnabled := false } (by decide)).1

/-- C15. Reset without an input item is a silent no-op: with no input item
attached, whatever the hints, the locale and the input mode, `reset` leaves
every field as it was and emits nothing. -/
theorem reset_without_inputItem_noop (c : Collaborators) (d : ShiftHandlerPrivate)
    (hitem : c.inputItem = false) : reset c d = (d, []) := by
  simp [reset, hitem]

/-- Witness of C15: Katakana without an input item over a handler in lower
case. -/
theorem reset_without_inputItem_noop_witness :
    reset { katakanaField with inputItem := false } readyHandler = (readyHandler, []) :=
  reset_without_inputItem_noop { katakanaField with inputItem := false } readyHandler
    (by decide)

/-- C16, as stated, fails: a tap in the double-tap branch that finds a
timestamp whose elapsed time equals the double-click interval (1000 ms to
1400 ms, interval 400 ms), entered with caps lock off, shift on and no shift
change recorded, ends with caps lock off. -/
theorem toggleShift_window_boundary_counterexample :
    doubleTapBranch (latinField 1400) tappedHandler ∧
    tappedHandler.timer.isNull = false ∧
    tappedHandler.timer.elapsed (QTime.currentTime (latinField 1400).clock1)
      = (latinField 1400).mouseDoubleClickInterval ∧
    tappedHandler.timer.elapsed (QTime.currentTime (latinField 1400).clock2)
      = (latinField 1400).mouseDoubleClickInterval ∧
    tappedHandler.capsLock = false ∧
    tappedHandler.shift = true ∧
    tappedHandler.shiftChanged = false ∧
    (toggleShift (latinField 1400) tappedHandler).1.capsLock = false := by
  decide

/-- C16, amended. The double-tap window: in the double-tap branch of
`toggleShift`, a call that finds a timestamp whose elapsed time is strictly
below the double-click interval at every reading, entered with caps lock
off, shift on and no shift change recorded, ends with caps lock on; and the
timestamp is replaced by the current time when there was no timestamp or
the elapsed time exceeds the interval, and is kept in every other case. -/
theorem toggleShift_window_boundary (c : Collaborators) (d : ShiftHandlerPrivate)
    (h : doubleTapBranch c d) :
    (d.timer.isNull = false →
      d.timer.elapsed (QTime.currentTime c.clock1) < c.mouseDoubleClickInterval →
      d.timer.elapsed (QTime.currentTime c.clock2) < c.mouseDoubleClickInterval →
      d.capsLock = false → d.shift = true → d.shiftChanged = false →
      (toggleShift c d).1.capsLock = true) ∧
    ((d.timer.isNull = true ∨
        d.timer.elapsed (QTime.currentTime c.clock1) > c.mouseDoubleClickInterval) →
      (toggleShift c d).1.timer
        = QTime.currentTime (if d.timer.isNull = true then c.clock1 else c.clock2)) ∧
    (¬ (d.timer.isNull = true ∨
        d.timer.elapsed (QTime.currentTime c.clock1) > c.mouseDoubleClickInterval) →
      (toggleShift c d).1.timer = d.timer) := by
  rw [toggleShift_of_doubleTapBranch c d h]
  refine ⟨?_, ?_, ?_⟩
  · intro hn h1 h2 _ hsh hch
    exact (toggleShiftDoubleTap_fast c d hsh hch hn h1 h2).1
  · intro hs
    rw [toggleShiftDoubleTap_timer]
    by_cases hn : d.timer.isNull = true
    · simp [hn]
    · rcases hs with hs | hs
      · exact absurd hs hn
      · simp [hn, hs]
  · intro hs
    rw [toggleShiftDoubleTap_timer]
    have hn : ¬ d.timer.isNull = true := fun hn => hs (Or.inl hn)
    have h1 : ¬ d.timer.elapsed (QTime.currentTime c.clock1) > c.mouseDoubleClickInterval :=
      fun h1 => hs (Or.inr h1)
    simp [hn, h1]

/-- Witness of the amended C16: a second tap 399 ms after the first locks and
keeps the timestamp; a tap 401 ms after the first replaces the timestamp. -/
theorem toggleShift_window_boundary_witness :
    doubleTapBranch (latinField 1399) tappedHandler ∧
    (toggleShift (latinField 1399) tappedHandler).1.capsLock = true ∧
    (toggleShift (latinField 1399) tappedHandler).1.timer = ⟨1000⟩ ∧
    (toggleShift (latinField 1401) tappedHandler).1.timer = ⟨1401⟩ :=
  ⟨by decide,
    (toggleShift_window_boundary (latinField 1399) tappedHandler (by decide)).1
      (by decide) (by decide) (by decide) (by decide) (by decide) (by decide),
    (toggleShift_window_boundary (latinField 1399) tappedHandler (by decide)).2.2 (by decide),
    (toggleShift_window_boundary (latinField 1401) tappedHandler (by decide)).2.1
      (Or.inr (by decide))⟩

/-- C17, as stated, fails: the call reads the elapsed time twice, on line 234
and on line 236, and one elapsed time does not decide the outcome. Entered
with caps lock on, shift on, no shift change recorded and the timestamp
1000, with an interval of 400 ms: when the clock reads 1399 and then 1400,
the timestamp is found with an elapsed time of 399, strictly below the
interval, yet caps lock is off after the call and shift is negated; when the
clock reads 1400 and then 1399, the first elapsed time is not strictly below
the interval, yet caps lock is on after the call. -/
theorem toggleShift_capsLock_survival_counterexample :
    doubleTapBranch (tickingField 1399 1400) lockedHandler ∧
    lockedHandler.capsLock = true ∧
    lockedHandler.shift = true ∧
    lockedHandler.shiftChanged = false ∧
    lockedHandler.timer.isNull = false ∧
    lockedHandler.timer.elapsed (QTime.currentTime (tickingField 1399 1400).clock1) = 399 ∧
    (tickingField 1399 1400).mouseDoubleClickInterval = 400 ∧
    (toggleShift (tickingField 1399 1400) lockedHandler).1.capsLock = false ∧
    (toggleShift (tickingField 1399 1400) lockedHandler).1.shift = false ∧
    doubleTapBranch (tickingField 1400 1399) lockedHandler ∧
    lockedHandler.timer.elapsed (QTime.currentTime (tickingField 1400 1399).clock1) = 400 ∧
    (tickingField 1400 1399).mouseDoubleClickInterval = 400 ∧
    (toggleShift (tickingField 1400 1399) lockedHandler).1.capsLock = true := by
  decide

/-- C17, amended. Caps-lock survival in the double-tap branch: for every
`toggleShift` call in the double-tap branch entered with caps lock on, caps
lock is on after the call exactly when shift was on at entry, no shift
change was recorded, and a timestamp exists whose elapsed time does not
exceed the double-click interval when line 234 reads it and is strictly
below the interval when line 236 reads it; then shift stays on and the
timestamp is kept; in every other case caps lock is off after the call and
shift is negated. -/
theorem toggleShift_capsLock_survival (c : Collaborators) (d : ShiftHandlerPrivate)
    (h : doubleTapBranch c d) (hcaps : d.capsLock = true) :
    ((toggleShift c d).1.capsLock = true ↔
      (d.shift = true ∧ d.shiftChanged = false ∧ d.timer.isNull = false ∧
        d.timer.elapsed (QTime.currentTime c.clock1) ≤ c.mouseDoubleClickInterval ∧
        d.timer.elapsed (QTime.currentTime c.clock2) < c.mouseDoubleClickInterval)) ∧
    ((d.shift = true ∧ d.shiftChanged = false ∧ d.timer.isNull = false ∧
        d.timer.elapsed (QTime.currentTime c.clock1) ≤ c.mouseDoubleClickInterval ∧
        d.timer.elapsed (QTime.currentTime c.clock2) < c.mouseDoubleClickInterval) →
      (toggleShift c d).1.shift = true ∧ (toggleShift c d).1.timer = d.timer) ∧
    (¬ (d.shift = true ∧ d.shiftChanged = false ∧ d.timer.isNull = false ∧
        d.timer.elapsed (QTime.currentTime c.clock1) ≤ c.mouseDoubleClickInterval ∧
        d.timer.elapsed (QTime.currentTime c.clock2) < c.mouseDoubleClickInterval) →
      (toggleShift c d).1.capsLock = false ∧ (toggleShift c d).1.shift = (!d.shift)) := by
  rw [toggleShift_of_doubleTapBranch c d h]
  obtain ⟨hyes, hno⟩ := toggleShiftDoubleTap_locked_entry c d hcaps
  refine ⟨?_, ?_, hno⟩
  · constructor
    · intro hc
      by_contra hS
      rw [(hno hS).1] at hc
      exact Bool.false_ne_true hc
    · intro hS
      exact (hyes hS).1
  · intro hS
    refine ⟨(hyes hS).2, ?_⟩
    rw [toggleShiftDoubleTap_timer]
    obtain ⟨_, _, hn, e1, _⟩ := hS
    have h1 : ¬ d.timer.elapsed (QTime.currentTime c.clock1) > c.mouseDoubleClickInterval := by
      omega
    simp [hn, h1]

/-- Witness of the amended C17: a third tap inside the window opened at
1000 ms, with the clock reading 1200 and then 1201, keeps the lock, shift
and the timestamp; a tap with the clock reading 1399 and then 1400 loses the
lock and turns shift off. -/
theorem toggleShift_capsLock_survival_witness :
    doubleTapBranch (tickingField 1200 1201) lockedHandler ∧
    lockedHandler.capsLock = true ∧
    (toggleShift (tickingField 1200 1201) lockedHandler).1.capsLock = true ∧
    (toggleShift (tickingField 1200 1201) lockedHandler).1.shift = true ∧
    (toggleShift (tickingField 1200 1201) lockedHandler).1.timer = lockedHandler.timer ∧
    (toggleShift (tickingField 1399 1400) lockedHandler).1.capsLock = false ∧
    (toggleShift (tickingField 1399 1400) lockedHandler).1.shift = (!lockedHandler.shift) :=
  ⟨by decide, by decide,
    (toggleShift_capsLock_survival (tickingField 1200 1201) lockedHandler (by decide)
      (by decide)).1.mpr (by decide),
    ((toggleShift_capsLock_survival (tickingField 1200 1201) lockedHandler (by decide)
      (by decide)).2.1 (by decide)).1,
    ((toggleShift_capsLock_survival (tickingField 1200 1201) lockedHandler (by decide)
      (by decide)).2.1 (by decide)).2,
    (toggleShift_capsLock_survival (tickingField 1399 1400) lockedHandler (by decide)
      (by decide)).2.2 (by decide)⟩

/-- C18. No redundant uppercase notification: in every state reachable from
the freshly constructed handler by invocations of `reset`, `restart`,
`inputMethodVisibleChanged`, `localeChanged`, `autoCapitalize`,
`setSentenceEndingCharacters`, `toggleShift` and `clearToggleShiftTimer`
under any collaborator values, one execution of `reset`, of `autoCapitalize`
or of `toggleShift` emits `uppercaseChanged` at most once, and emits it
exactly when `uppercase` after the slot differs from `uppercase` before. -/
theorem uppercase_notified_once (d : ShiftHandlerPrivate) (hreach : Reachable d)
    (c : Collaborators) :
    uppercaseNotifiedExactly d (reset c d) ∧
    uppercaseNotifiedExactly d (autoCapitalize c d) ∧
    uppercaseNotifiedExactly d (toggleShift c d) := by
  have hinv := reachable_capsLockImpliesShift d hreach
  exact ⟨uppercaseNotifiedExactly_of_count d _ (reset_uppercase_once c d hinv),
    uppercaseNotifiedExactly_of_count d _ (autoCapitalize_uppercase_once c d),
    uppercaseNotifiedExactly_of_count d _ (toggleShift_uppercase_once c d hinv)⟩

/-- Witness of C18: the state after the sample session, with a second tap
100 ms after the first. -/
theorem uppercase_notified_once_witness :
    uppercaseNotifiedExactly
      (run sampleSession (ShiftHandlerPrivate.constructed (Language.other 0)))
      (reset (latinField 1100)
        (run sampleSession (ShiftHandlerPrivate.constructed (Language.other 0)))) ∧
    uppercaseNotifiedExactly
      (run sampleSession (ShiftHandlerPrivate.constructed (Language.other 0)))
      (autoCapitalize (latinField 1100)
        (run sampleSession (ShiftHandlerPrivate.constructed (Language.other 0)))) ∧
    uppercaseNotifiedExactly
      (run sampleSession (ShiftHandlerPrivate.constructed (Language.other 0)))
      (toggleShift (latinField 1100)
        (run sampleSession (ShiftHandlerPrivate.constructed (Language.other 0)))) :=
  uppercase_notified_once
    (run sampleSession (ShiftHandlerPrivate.constructed (Language.other 0)))
    ⟨Language.other 0, sampleSession, rfl⟩ (latinField 1100)

/-- C19. Caps lock implies shift: in every state reachable from the freshly
constructed handler by invocations of `reset`, `restart`,
`inputMethodVisibleChanged`, `localeChanged`, `autoCapitalize`,
`setSentenceEndingCharacters`, `toggleShift` and `clearToggleShiftTimer`
under any collaborator values and clock readings, caps lock on implies shift
on, so that `uppercase` equals shift. -/
theorem capsLock_implies_shift (d : ShiftHandlerPrivate) (hreach : Reachable d) :
    (d.capsLock = true → d.shift = true) ∧ uppercase d = d.shift := by
  have hinv := reachable_capsLockImpliesShift d hreach
  refine ⟨hinv, ?_⟩
  unfold uppercase
  cases hc : d.capsLock
  · simp
  · simp [hinv hc]

/-- Witness of C19: the state after a reset in Katakana mode, where caps
lock is on. -/
theorem capsLock_implies_shift_witness :
    (run [(Command.reset, katakanaField)]
      (ShiftHandlerPrivate.constructed (Language.other 0))).capsLock = true ∧
    (run [(Command.reset, katakanaField)]
      (ShiftHandlerPrivate.constructed (Language.other 0))).shift = true :=
  ⟨by decide,
    (capsLock_implies_shift
      (run [(Command.reset, katakanaField)]
        (ShiftHandlerPrivate.constructed (Language.other 0)))
      ⟨Language.other 0, [(Command.reset, katakanaField)], rfl⟩).1 (by decide)⟩

/-- C20. Reset is idempotent and forgets the previous shift state: with an
input item attached and the same collaborator values, stored locale and
sentence-ending characters, the values of `toggleShiftEnabled`,
`autoCapitalizationEnabled`, `capsLock` and `shift` after `reset` are the
same from any two prior states; and a second `reset` under the same
collaborator values changes no field and emits nothing. -/
theorem reset_idempotent_forgetful (c : Collaborators) (d1 d2 : ShiftHandlerPrivate)
    (hitem : c.inputItem = true) (hloc : d1.locale = d2.locale)
    (hsec : d1.sentenceEndingCharacters = d2.sentenceEndingCharacters) :
    (reset c d1).1.toggleShiftEnabled = (reset c d2).1.toggleShiftEnabled ∧
    (reset c d1).1.autoCapitalizationEnabled = (reset c d2).1.autoCapitalizationEnabled ∧
    (reset c d1).1.capsLock = (reset c d2).1.capsLock ∧
    (reset c d1).1.shift = (reset c d2).1.shift ∧
    reset c (reset c d1).1 = ((reset c d1).1, []) := by
  have hL := resetLocals_congr c d1 d2 hloc
  obtain ⟨hc1, ha1, ht1, _, _⟩ := reset_fields c d1 hitem
  obtain ⟨hc2, ha2, ht2, _, _⟩ := reset_fields c d2 hitem
  have hs1 := reset_shift c d1 hitem
  have hs2 := reset_shift c d2 hitem
  obtain ⟨hfl, hfs, _, _⟩ := reset_frame c d1
  have hL1 := resetLocals_congr c (reset c d1).1 d1 hfl
  refine ⟨?_, ?_, ?_, ?_, ?_⟩
  · rw [ht1, ht2, hL]
  · rw [ha1, ha2, hL]
  · rw [hc1, hc2, hL]
  · rw [hs1, hs2, hL, hsec]
  · apply reset_fixed
    · rw [ht1, hL1]
    · rw [ha1, hL1]
    · rw [hc1, hL1]
    · rw [hs1, hL1, hfs]

/-- Witness of C20: over the text "Hello. " with the cursor at 7, a handler in
lower case and a locked handler with both policies off end with the same
four values, and a second reset does nothing. -/
theorem reset_idempotent_forgetful_witness :
    (reset (textField [72, 101, 108, 108, 111, 46, 32] 7) readyHandler).1.shift
      = (reset (textField [72, 101, 108, 108, 111, 46, 32] 7)
          { lockedHandler with toggleShiftEnabled := false,
                               autoCapitalizationEnabled := false }).1.shift ∧
    reset (textField [72, 101, 108, 108, 111, 46, 32] 7)
        (reset (textField [72, 101, 108, 108, 111, 46, 32] 7) readyHandler).1
      = ((reset (textField [72, 101, 108, 108, 111, 46, 32] 7) readyHandler).1, []) :=
  ⟨(reset_idempotent_forgetful (textField [72, 101, 108, 108, 111, 46, 32] 7) readyHandler
      { lockedHandler with toggleShiftEnabled := false, autoCapitalizationEnabled := false }
      (by decide) (by decide) (by decide)).2.2.2.1,
    (reset_idempotent_forgetful (textField [72, 101, 108, 108, 111, 46, 32] 7) readyHandler
      { lockedHandler with toggleShiftEnabled := false, autoCapitalizationEnabled := false }
      (by decide) (by decide) (by decide)).2.2.2.2⟩

end QtVirtualKeyboard
